import Mathlib

/-!
Shallow embedding of the hotaruika-prediction-api feature pipeline
(src/app/services/utils.py, src/app/services/prediction_service.py,
src/app/services/data_fetcher.py).

Modelling conventions:
* Machine floats are modelled as exact rationals; a possibly-NaN float is
  an `Option ℚ` with NaN as `none`.
* Floating-point transcendental operations (np.sin, np.cos, np.arctan2,
  the square root inside pandas std) and the constant np.pi have no exact
  rational counterpart; they are abstracted as the fields of `FloatOps`,
  passed as an explicit parameter to every definition that uses them.
  No verified property depends on their numeric values.
* Calendar functions of pandas timestamps and the holidays library
  (year, month, weekday, ISO week, day-of-year, JP-holiday lookup) are
  abstracted as the fields of `Calendar` over an integer day index.
* The trained artifacts (model, scalers, label encoder, feature list) are
  opaque loaded objects in the source; they are the fields of `ModelStack`.
-/

namespace Hotaruika

/-- Rounding used by np.round: round half to even.  np.round then int()
in the source is exact because the rounded float is integer-valued. -/
def npRound (q : ℚ) : ℤ :=
  if q - ⌊q⌋ < 1/2 then ⌊q⌋
  else if 1/2 < q - ⌊q⌋ then ⌊q⌋ + 1
  else if ⌊q⌋ % 2 = 0 then ⌊q⌋ else ⌊q⌋ + 1

/-- Python int() on a float: truncation toward zero. -/
def pyTrunc (q : ℚ) : ℤ := if 0 ≤ q then ⌊q⌋ else ⌈q⌉

/-- pandas Series.round(1): round half to even at one decimal place. -/
def round1 (q : ℚ) : ℚ := (npRound (q * 10) : ℚ) / 10

/-- Opaque floating-point operations: np.sin, np.cos, np.arctan2, the
square root used by pandas Series.std, and np.pi. -/
structure FloatOps where
  sin : ℚ → ℚ
  cos : ℚ → ℚ
  atan2 : ℚ → ℚ → ℚ
  sqrt : ℚ → ℚ
  pi : ℚ

/-- A concrete all-zero instantiation of `FloatOps`, used to evaluate
properties that do not depend on the transcendental values. -/
def zeroOps : FloatOps := ⟨fun _ => 0, fun _ => 0, fun _ _ => 0, fun _ => 0, 0⟩

/-- utils.DIRECTIONS: the 16 compass labels, clockwise from north.
(北 = N, 北北東 = NNE, ..., 北北西 = NNW.) -/
def DIRECTIONS : List String :=
  ["北", "北北東", "北東", "東北東", "東", "東南東", "南東", "南南東",
   "南", "南南西", "南西", "西南西", "西", "西北西", "北西", "北北西"]

/-- utils.degree_to_direction.  A NaN degree (modelled `none`) yields the
empty string.  `int((degree / 22.5) + 0.5)` is Python truncation and
`val % 16` is Python modulo (`Int.emod`), so the list index is always in
range 0–15; `List.getD` with default "" is therefore never out of range. -/
def degree_to_direction (degree : Option ℚ) : String :=
  match degree with
  | none => ""
  | some d => DIRECTIONS.getD ((pyTrunc (d / 22.5 + 0.5)).emod 16).toNat ""

/-- prediction_service.DIRECTION_MAP: label → sector index 0–15. -/
def DIRECTION_MAP : List (String × ℕ) :=
  [("北", 0), ("北北東", 1), ("北東", 2), ("東北東", 3),
   ("東", 4), ("東南東", 5), ("南東", 6), ("南南東", 7),
   ("南", 8), ("南南西", 9), ("南西", 10), ("西南西", 11),
   ("西", 12), ("西北西", 13), ("北西", 14), ("北北西", 15)]

/-- prediction_service.direction_to_radian: 2π·idx/16 for a known label,
NaN (`none`) otherwise. -/
def direction_to_radian (ops : FloatOps) (d : String) : Option ℚ :=
  (List.lookup d DIRECTION_MAP).map (fun idx => 2 * ops.pi * idx / 16)

/-- prediction_service.mean_wind_direction: drop labels outside
DIRECTION_MAP, return NaN (`none`) when none remain, otherwise the
circular mean sector `int(np.round(mean_rad·16/2π)) % 16` where mean_rad
is `atan2(mean sin, mean cos)` shifted by 2π when negative. -/
def mean_wind_direction (ops : FloatOps) (directions : List String) : Option ℤ :=
  let radians := (directions.filter
    (fun d => (List.lookup d DIRECTION_MAP).isSome)).filterMap (direction_to_radian ops)
  if radians.length = 0 then none
  else
    let sin_sum := (radians.map ops.sin).sum / (radians.length : ℚ)
    let cos_sum := (radians.map ops.cos).sum / (radians.length : ℚ)
    let mean_rad0 := ops.atan2 sin_sum cos_sum
    let mean_rad := if mean_rad0 < 0 then mean_rad0 + 2 * ops.pi else mean_rad0
    some ((npRound (mean_rad * 16 / (2 * ops.pi))).emod 16)

/-- A local timestamp: the calendar date as an integer day index, plus
the minute of day (hourly source rows have minute multiples of 60). -/
structure Timestamp where
  day : ℤ
  minute : ℕ
deriving DecidableEq

/-- pandas Series.dt.date on the time column. -/
def Timestamp.date (t : Timestamp) : ℤ := t.day

/-- pandas Series.dt.hour on the time column. -/
def Timestamp.hour (t : Timestamp) : ℕ := t.minute / 60

/-- Chronological order on timestamps (lexicographic day, then minute). -/
def Timestamp.le (a b : Timestamp) : Prop :=
  a.day < b.day ∨ (a.day = b.day ∧ a.minute ≤ b.minute)

instance Timestamp.decLe (a b : Timestamp) : Decidable (Timestamp.le a b) := by
  unfold Timestamp.le; infer_instance

/-- One row of the enriched hourly frame consumed by
create_features_for_day: columns time, temperature_2m, precipitation,
wind_speed_ms, wind_direction_str.  The raw wind_speed_10m and
wind_direction_10m columns are not read by the feature builder and are
omitted.  wind_direction_str is produced by degree_to_direction, hence
always a string (possibly ""), never NaN. -/
structure HourlyRecord where
  time : Timestamp
  temperature_2m : Option ℚ
  precipitation : Option ℚ
  wind_speed_ms : Option ℚ
  wind_direction_str : String
deriving DecidableEq

/-- pandas Series.dropna on a float column. -/
def dropna (xs : List (Option ℚ)) : List ℚ := xs.filterMap id

/-- pandas Series.mean (skipna by default): NaN on an empty or all-NaN
column, else the arithmetic mean of the non-null values. -/
def seriesMean (xs : List (Option ℚ)) : Option ℚ :=
  let v := dropna xs
  if v.length = 0 then none else some (v.sum / (v.length : ℚ))

/-- pandas Series.max (skipna): NaN on an empty or all-NaN column. -/
def seriesMax (xs : List (Option ℚ)) : Option ℚ :=
  (dropna xs).foldl (fun acc x =>
    match acc with
    | none => some x
    | some m => some (max m x)) none

/-- pandas Series.min (skipna): NaN on an empty or all-NaN column. -/
def seriesMin (xs : List (Option ℚ)) : Option ℚ :=
  (dropna xs).foldl (fun acc x =>
    match acc with
    | none => some x
    | some m => some (min m x)) none

/-- pandas Series.sum (skipna): 0 on an empty column. -/
def seriesSum (xs : List (Option ℚ)) : ℚ := (dropna xs).sum

/-- pandas Series.std (ddof = 1, skipna): NaN when fewer than two non-null
samples remain, else the square root (opaque float op) of the unbiased
sample variance. -/
def seriesStd (ops : FloatOps) (xs : List (Option ℚ)) : Option ℚ :=
  let v := dropna xs
  if v.length < 2 then none
  else
    let m := v.sum / (v.length : ℚ)
    some (ops.sqrt ((v.map (fun x => (x - m) ^ 2)).sum / ((v.length : ℚ) - 1)))

/-- Calendar functions of pandas timestamps and the holidays library,
abstracted over the integer day index. -/
structure Calendar where
  year : ℤ → ℤ
  month : ℤ → ℤ
  dayOfMonth : ℤ → ℤ
  weekday : ℤ → ℤ
  weekOfYear : ℤ → ℤ
  dayOfYear : ℤ → ℤ
  isHoliday : ℤ → Bool

/-- A concrete all-zero calendar, used only to evaluate properties that do
not depend on calendar arithmetic. -/
def zeroCal : Calendar := ⟨fun _ => 0, fun _ => 0, fun _ => 0, fun _ => 0,
  fun _ => 0, fun _ => 0, fun _ => false⟩

/-- Line 70–72: the temperature/precipitation window
[targetDate 10:00, targetDate+1 04:00], inclusive bounds. -/
def tp_window (target : ℤ) (df : List HourlyRecord) : List HourlyRecord :=
  df.filter (fun r =>
    decide (Timestamp.le ⟨target, 600⟩ r.time) &&
    decide (Timestamp.le r.time ⟨target + 1, 240⟩))

/-- Line 75–77: the wind window [targetDate 20:00, targetDate+1 04:00]. -/
def wind_window (target : ℤ) (df : List HourlyRecord) : List HourlyRecord :=
  df.filter (fun r =>
    decide (Timestamp.le ⟨target, 1200⟩ r.time) &&
    decide (Timestamp.le r.time ⟨target + 1, 240⟩))

/-- Line 80: chained boolean indexing df[date mask][hour mask]; the second
mask is aligned on the original row labels, so the net effect is the
conjunction of both conditions (hour between 10 and 13, inclusive). -/
def tp_10_13 (target : ℤ) (df : List HourlyRecord) : List HourlyRecord :=
  df.filter (fun r =>
    decide (r.time.date = target) && decide (10 ≤ r.time.hour ∧ r.time.hour ≤ 13))

/-- Line 81: as tp_10_13, hours 14–17. -/
def tp_14_17 (target : ℤ) (df : List HourlyRecord) : List HourlyRecord :=
  df.filter (fun r =>
    decide (r.time.date = target) && decide (14 ≤ r.time.hour ∧ r.time.hour ≤ 17))

/-- Line 82: as tp_10_13, hours 18–21. -/
def tp_18_21 (target : ℤ) (df : List HourlyRecord) : List HourlyRecord :=
  df.filter (fun r =>
    decide (r.time.date = target) && decide (18 ≤ r.time.hour ∧ r.time.hour ≤ 21))

/-- Line 83: the wrap window.  The Python mask is
`A & B | C & D`; `&` binds tighter than `|`, so it parses as
`(A ∧ B) ∨ (C ∧ D)`: (date = target ∧ hour ≥ 22) ∨ (date = target+1 ∧ hour = 0). -/
def tp_22_00 (target : ℤ) (df : List HourlyRecord) : List HourlyRecord :=
  df.filter (fun r =>
    (decide (r.time.date = target) && decide (22 ≤ r.time.hour)) ||
    (decide (r.time.date = target + 1) && decide (r.time.hour = 0)))

/-- Line 84: (date = target+1) ∧ hour between 1 and 4, inclusive. -/
def tp_01_04 (target : ℤ) (df : List HourlyRecord) : List HourlyRecord :=
  df.filter (fun r =>
    decide (r.time.date = target + 1) && decide (1 ≤ r.time.hour ∧ r.time.hour ≤ 4))

/-- A cell of the per-day feature record and of the feature table:
a float that may be NaN. -/
abbrev Cell := Option ℚ

/-- A per-day feature record: the Python dict / pd.Series, as an ordered
association list of column name and cell. -/
abbrev FeatureRow := List (String × Cell)

/-- Lines 59–117 of create_features_for_day: the feature dict before the
final fillna(0).  The date cell stores the day index as a rational; it is
never null and no later step reads it. -/
def create_features_for_day_raw (ops : FloatOps) (cal : Calendar) (target : ℤ)
    (full_hourly_df : List HourlyRecord) (moon_age : ℚ) : FeatureRow :=
  let temp_precip_weather := tp_window target full_hourly_df
  let wind_weather := wind_window target full_hourly_df
  let t1013 := tp_10_13 target full_hourly_df
  let t1417 := tp_14_17 target full_hourly_df
  let t1821 := tp_18_21 target full_hourly_df
  let t2200 := tp_22_00 target full_hourly_df
  let t0104 := tp_01_04 target full_hourly_df
  let temps := temp_precip_weather.map (fun r => r.temperature_2m)
  let precs := temp_precip_weather.map (fun r => r.precipitation)
  let winds := wind_weather.map (fun r => r.wind_speed_ms)
  let wind_dirs := wind_weather.map (fun r => r.wind_direction_str)
  let precipitation_sum := seriesSum precs
  [("date", some (target : ℚ)),
   ("year", some ((cal.year target : ℚ))),
   ("month", some ((cal.month target : ℚ))),
   ("day", some ((cal.dayOfMonth target : ℚ))),
   ("weekday", some ((cal.weekday target : ℚ))),
   ("week_of_year", some ((cal.weekOfYear target : ℚ))),
   ("week_of_month", some ((Int.fdiv (cal.dayOfMonth target - 1) 7 + 1 : ℚ))),
   ("day_of_year", some ((cal.dayOfYear target : ℚ))),
   ("is_weekend", some (if cal.weekday target = 5 ∨ cal.weekday target = 6 then 1 else 0)),
   ("is_holiday", some (if cal.isHoliday target then 1 else 0)),
   ("moon_age", some moon_age),
   ("temperature_mean", seriesMean temps),
   ("temperature_max", seriesMax temps),
   ("temperature_min", seriesMin temps),
   ("temperature_std", seriesStd ops temps),
   ("temperature_mean_10_13", seriesMean (t1013.map (fun r => r.temperature_2m))),
   ("temperature_mean_14_17", seriesMean (t1417.map (fun r => r.temperature_2m))),
   ("temperature_mean_18_21", seriesMean (t1821.map (fun r => r.temperature_2m))),
   ("temperature_mean_22_0", seriesMean (t2200.map (fun r => r.temperature_2m))),
   ("temperature_mean_1_4", seriesMean (t0104.map (fun r => r.temperature_2m))),
   ("precipitation_sum", some precipitation_sum),
   ("precipitation_binary", some (if precipitation_sum > 0 then 1 else 0)),
   ("precipitation_sum_10_13", some (seriesSum (t1013.map (fun r => r.precipitation)))),
   ("precipitation_sum_14_17", some (seriesSum (t1417.map (fun r => r.precipitation)))),
   ("precipitation_sum_18_21", some (seriesSum (t1821.map (fun r => r.precipitation)))),
   ("precipitation_sum_22_0", some (seriesSum (t2200.map (fun r => r.precipitation)))),
   ("precipitation_sum_1_4", some (seriesSum (t0104.map (fun r => r.precipitation)))),
   ("wind_speed_mean", seriesMean winds),
   ("wind_speed_max", seriesMax winds),
   ("wind_speed_min", seriesMin winds),
   ("wind_speed_std", seriesStd ops winds),
   ("wind_direction_mean", (mean_wind_direction ops wind_dirs).map (fun z => (z : ℚ)))]

/-- pd.Series.fillna(0): replace every null cell by 0. -/
def Series.fillna0 (r : FeatureRow) : FeatureRow :=
  r.map (fun p => (p.1, some (p.2.getD 0)))

/-- create_features_for_day (lines 54–118): the feature dict followed by
the final `pd.Series(row).fillna(0)` of line 118. -/
def create_features_for_day (ops : FloatOps) (cal : Calendar) (target : ℤ)
    (full_hourly_df : List HourlyRecord) (moon_age : ℚ) : FeatureRow :=
  Series.fillna0 (create_features_for_day_raw ops cal target full_hourly_df moon_age)

/-- A column of the feature table. -/
abbrev DFCol := List Cell

/-- The feature DataFrame, column-major: ordered association list of
column name and column. -/
abbrev DataFrame := List (String × DFCol)

/-- Column read df[name], as an Option (pandas raises KeyError when the
column is absent). -/
def DataFrame.getCol (df : DataFrame) (name : String) : Option DFCol :=
  List.lookup name df

/-- Column names, in order. -/
def DataFrame.colNames (df : DataFrame) : List String := df.map Prod.fst

/-- Column write df[name] = col: replace in place when the name exists,
else append a new column (pandas column-assignment semantics). -/
def DataFrame.setCol (df : DataFrame) (name : String) (c : DFCol) : DataFrame :=
  if df.colNames.contains name then
    df.map (fun p => if p.1 = name then (name, c) else p)
  else df ++ [(name, c)]

/-- Helper for forward fill: carry the last non-null value downward. -/
def ffillColAux : Cell → DFCol → DFCol
  | _, [] => []
  | last, none :: t => last :: ffillColAux last t
  | _, some x :: t => some x :: ffillColAux (some x) t

/-- pandas Series.ffill. -/
def ffillCol (c : DFCol) : DFCol := ffillColAux none c

/-- pandas Series.bfill = reversed ffill. -/
def bfillCol (c : DFCol) : DFCol := (ffillColAux none c.reverse).reverse

/-- df.ffill(): column-wise forward fill (line 170). -/
def DataFrame.ffill (df : DataFrame) : DataFrame :=
  df.map (fun p => (p.1, ffillCol p.2))

/-- df.bfill(): column-wise backward fill (line 171). -/
def DataFrame.bfill (df : DataFrame) : DataFrame :=
  df.map (fun p => (p.1, bfillCol p.2))

/-- pd.DataFrame(list of Series) (line 169): the rows share one index
(the fixed key list of create_features_for_day), so the columns are the
first row's keys, each collecting that key's cell in every row.  The
`getD none` branch is never taken for the uniform rows built here. -/
def assemble (rows : List FeatureRow) : DataFrame :=
  match rows with
  | [] => []
  | r0 :: _ => r0.map (fun p => (p.1, rows.map (fun r => (List.lookup p.1 r).getD none)))

/-- Cell-wise application of a float function to a column; NaN propagates
(np.sin(NaN) = NaN). -/
def mapCol (f : ℚ → ℚ) (c : DFCol) : DFCol := c.map (Option.map f)

/-- Cell-wise binary operation on two columns; NaN propagates. -/
def zipCols (f : ℚ → ℚ → ℚ) (a b : DFCol) : DFCol :=
  a.zipWith (fun x y =>
    match x, y with
    | some u, some v => some (f u v)
    | _, _ => none) b

/-- pandas Series.shift(k): k leading NaNs, the last k values dropped,
length preserved. -/
def shiftCol (k : ℕ) (c : DFCol) : DFCol :=
  (List.replicate k none ++ c).take c.length

/-- pd.Series(xs).mode()[0]: pandas mode lists the values of maximal
multiplicity in ascending order, so the first is the smallest of them.
Defined as 0 on the empty list, where pandas would raise (the encoder
class list is nonempty in any trained artifact). -/
def modeFirst (xs : List ℚ) : ℚ :=
  let maxCount := (xs.map (fun x => xs.count x)).foldr max 0
  match xs.filter (fun x => xs.count x = maxCount) with
  | [] => 0
  | h :: t => t.foldl min h

/-- Python `"_lag" in c`: substring containment. -/
def containsStr (s pat : String) : Bool := decide (pat.data <:+: s.data)

/-- The trained artifacts loaded in PredictionService.__init__, opaque at
inference time: the label encoder's class list and transform, the ordered
model feature list, the input scaler, the regressor (one output per row),
and the inverse output scaler. -/
structure ModelStack where
  classes : List ℚ
  leTransform : ℚ → ℚ
  features_list : List String
  scalerX : List Cell → List ℚ
  predictOne : List ℚ → ℚ
  scalerYInv : ℚ → ℚ

/-- The column set excluded from lagging (line 136). -/
def LAG_EXCLUDED : List String :=
  ["year", "month", "week_of_month", "is_weekend", "is_holiday",
   "weekday_sin", "weekday_cos"]

/-- One iteration of the lag loop (lines 137–139): col_lag1 and col_lag2
from the base column, which is present by construction of cols_for_lag
(the `getD []` default is never taken). -/
def lagStep (df : DataFrame) (c : String) : DataFrame :=
  let base := (df.getCol c).getD []
  (df.setCol (c ++ "_lag1") (shiftCol 1 base)).setCol (c ++ "_lag2") (shiftCol 2 base)

/-- The remap of line 131: keep a known label, replace anything else —
including NaN, which is never a member of the known set — by
pd.Series(classes).mode()[0]. -/
def remapCell (classes : List ℚ) (cell : Cell) : ℚ :=
  match cell with
  | some x => if x ∈ classes then x else modeFirst classes
  | none => modeFirst classes

/-- Column read df[name] in the Except monad: a missing column is a
pandas KeyError. -/
def DataFrame.colE (df : DataFrame) (name : String) : Except String DFCol :=
  match df.getCol name with
  | some c => Except.ok c
  | none => Except.error ("KeyError: " ++ name)

/-- PredictionService._engineer_features (lines 120–140).  Column reads
are pandas KeyError sites, modelled in the Except monad.  Where the
source reads df['moon_age'] (resp. other base columns) once per derived
column, the reads are collapsed to one, since the intervening writes
touch other columns only. -/
def _engineer_features (ops : FloatOps) (ms : ModelStack) (df : DataFrame) :
    Except String DataFrame := do
  let c ← df.colE "moon_age"
  let df := df.setCol "moon_age_sin" (mapCol (fun v => ops.sin (2 * ops.pi * v / (2953/100))) c)
  let df := df.setCol "moon_age_cos" (mapCol (fun v => ops.cos (2 * ops.pi * v / (2953/100))) c)
  let c ← df.colE "day_of_year"
  let df := df.setCol "day_of_year_sin" (mapCol (fun v => ops.sin (2 * ops.pi * v / (36525/100))) c)
  let df := df.setCol "day_of_year_cos" (mapCol (fun v => ops.cos (2 * ops.pi * v / (36525/100))) c)
  let c ← df.colE "weekday"
  let df := df.setCol "weekday_sin" (mapCol (fun v => ops.sin (2 * ops.pi * v / 7)) c)
  let df := df.setCol "weekday_cos" (mapCol (fun v => ops.cos (2 * ops.pi * v / 7)) c)
  let a ← df.colE "temperature_mean"
  let b ← df.colE "wind_speed_mean"
  let df := df.setCol "temp_x_wind" (zipCols (fun x y => x * y) a b)
  let w ← df.colE "wind_direction_mean"
  let df := df.setCol "wind_direction_mean" (w.map (fun cell => some (remapCell ms.classes cell)))
  let w2 ← df.colE "wind_direction_mean"
  let df := df.setCol "wind_direction_encoded" (w2.map (Option.map ms.leTransform))
  let cols_for_lag := (ms.features_list.filter
    (fun c => !(containsStr c "_lag") && df.colNames.contains c)).filter
    (fun c => !(LAG_EXCLUDED.contains c))
  return cols_for_lag.foldl lagStep df

/-- One row of the raw hourly weather frame (schemas.HourlyWeather,
row-wise): time plus the four raw hourly columns.  The schema declares the
floats non-nullable, but the feature code defends against NaN with dropna,
so cells are kept optional. -/
structure RawHourly where
  time : Timestamp
  temperature_2m : Option ℚ
  precipitation : Option ℚ
  wind_speed_10m : Option ℚ
  wind_direction_10m : Option ℚ
deriving DecidableEq

/-- One row of the daily summary frame (schemas.DailyWeather, row-wise);
time is the calendar date (day index).  All fields are schema-mandatory. -/
structure DailyRecord where
  time : ℤ
  weather_code : ℚ
  temperature_2m_max : ℚ
  temperature_2m_min : ℚ
  precipitation_probability_max : ℚ
  wind_direction_10m_dominant : ℚ
deriving DecidableEq

/-- A parsed weather API response (schemas.WeatherApiResponse): the hourly
and daily frames (latitude/longitude are unused downstream). -/
structure WeatherData where
  hourly : List RawHourly
  daily : List DailyRecord
deriving DecidableEq

/-- Lines 150–153: derive wind_speed_ms = round(raw·1000/3600, 1) and
wind_direction_str = degree_to_direction(raw degrees) for one hourly row. -/
def enrichHourly (r : RawHourly) : HourlyRecord :=
  ⟨r.time, r.temperature_2m, r.precipitation,
   r.wind_speed_10m.map (fun w => round1 (w * 1000 / 3600)),
   degree_to_direction r.wind_direction_10m⟩

/-- schemas.PredictionResponse.  predicted_amount and the daily-summary
fields are plain floats; moon_age is read out of a table cell and kept as
a possibly-NaN cell. -/
structure PredictionResponse where
  date : ℤ
  predicted_amount : ℚ
  moon_age : Cell
  weather_code : ℚ
  temperature_max : ℚ
  temperature_min : ℚ
  precipitation_probability_max : ℚ
  dominant_wind_direction : ℚ
deriving DecidableEq

/-- Outcome of one attempt of an external fetch: a transport error
(httpx.RequestError — retried), an application-level error (HTTP error
status or schema validation failure, the `except Exception` branch — not
retried), or a parsed value. -/
inductive FetchOutcome (V : Type) where
  | transportError : FetchOutcome V
  | appError : FetchOutcome V
  | ok : V → FetchOutcome V

/-- DataFetcher.MAX_RETRIES. -/
def MAX_RETRIES : ℕ := 3

/-- DataFetcher.RETRY_DELAY (seconds, the first backoff delay). -/
def RETRY_DELAY : ℕ := 1

/-- Observable trace of one fetch: its result, the backoff delays slept
(in order), and the number of attempts made. -/
structure FetchTrace (V : Type) where
  result : Option V
  delays : List ℕ
  attempts : ℕ
deriving DecidableEq

/-- The retry loop shared verbatim by DataFetcher.get_weather_data
(lines 40–56) and DataFetcher.get_moon_age (lines 68–89): `script n` is
the outcome the n-th attempt (0-based) would produce; `left` is the
number of loop iterations remaining, `attempt` the current index, `delay`
the current backoff.  On a transport error in the last iteration the loop
returns None without sleeping; otherwise it sleeps `delay` and doubles it. -/
def fetchAux (V : Type) (script : ℕ → FetchOutcome V) :
    ℕ → ℕ → ℕ → FetchTrace V
  | 0, _, _ => ⟨none, [], 0⟩
  | left + 1, attempt, delay =>
    match script attempt with
    | .ok v => ⟨some v, [], 1⟩
    | .appError => ⟨none, [], 1⟩
    | .transportError =>
      if left = 0 then ⟨none, [], 1⟩
      else
        let r := fetchAux V script left (attempt + 1) (delay * 2)
        ⟨r.result, delay :: r.delays, r.attempts + 1⟩

/-- A full fetch: the retry loop entered with MAX_RETRIES iterations,
attempt 0 and initial delay RETRY_DELAY. -/
def fetchWithRetry (V : Type) (script : ℕ → FetchOutcome V) : FetchTrace V :=
  fetchAux V script MAX_RETRIES 0 RETRY_DELAY

/-- DataFetcher.get_weather_data: the retry loop at the weather endpoint;
the ok payload is the parsed WeatherApiResponse.  HTTP error statuses and
pydantic validation failures are `appError` attempts. -/
def DataFetcher.get_weather_data (script : ℕ → FetchOutcome WeatherData) :
    FetchTrace WeatherData :=
  fetchWithRetry WeatherData script

/-- DataFetcher.get_moon_age: the retry loop at the tide endpoint; the ok
payload is `some age` when the requested date key is present in the parsed
chart and `none` when it is absent (both returned without retry). -/
def DataFetcher.get_moon_age (script : ℕ → FetchOutcome (Option ℚ)) :
    FetchTrace (Option ℚ) :=
  fetchWithRetry (Option ℚ) script

/-- Sequential effectful map: a Python for-loop that appends one result
per element and lets exceptions propagate. -/
def mapME {α β : Type} (f : α → Except String β) : List α → Except String (List β)
  | [] => Except.ok []
  | a :: t => do
    let b ← f a
    let bs ← mapME f t
    return b :: bs

/-- Lines 157–171 of predict_weekly: one feature record per date in
[today-2, today+7] (total_days_to_process = (end-start).days + 1 = 10,
dates start_date_fetch + i), each lunar age fetched individually and
defaulted to 15.0 on failure, assembled into the feature table, then
column-wise ffill followed by bfill. -/
def featureTable (ops : FloatOps) (cal : Calendar) (today : ℤ)
    (hourly_df : List HourlyRecord) (moonAgeFetch : ℤ → Option ℚ) : DataFrame :=
  let start_date_fetch := today - 2
  let all_days_features := (List.range 10).map (fun i : ℕ =>
    let target := start_date_fetch + (i : ℤ)
    let moon_age := (moonAgeFetch target).getD 15
    create_features_for_day ops cal target hourly_df moon_age)
  ((assemble all_days_features).ffill).bfill

/-- Line 172: the engineered 10-row table of predict_weekly. -/
def engineeredTable (ops : FloatOps) (cal : Calendar) (ms : ModelStack)
    (today : ℤ) (hourly_df : List HourlyRecord) (moonAgeFetch : ℤ → Option ℚ) :
    Except String DataFrame :=
  _engineer_features ops ms (featureTable ops cal today hourly_df moonAgeFetch)

/-- Row count of a column-major frame: the first column's length. -/
def DataFrame.nRows (df : DataFrame) : ℕ :=
  match df with
  | [] => 0
  | p :: _ => p.2.length

/-- Row slice df.iloc[a:b]: keep rows a..b-1 of every column. -/
def DataFrame.ilocSlice (df : DataFrame) (a b : ℕ) : DataFrame :=
  df.map (fun p => (p.1, (p.2.drop a).take (b - a)))

/-- predict_df[features_list] at row i: the named cells in feature-list
order; a missing column is a pandas KeyError. -/
def selectRow (df : DataFrame) (names : List String) (i : ℕ) :
    Except String (List Cell) :=
  mapME (fun n =>
    match df.getCol n with
    | some c => Except.ok (c.getD i none)
    | none => Except.error ("KeyError: " ++ n)) names

/-- PredictionService.predict_weekly (lines 142–200).  The two external
fetches enter as their results: `weather` is the weather fetch after its
retries (None on final failure) and `moonAgeFetch` gives each date's lunar
age fetch result (None on failure).  A falsy weather result raises; each
None lunar age is replaced by 15.0; rows 2..8 of the engineered table are
scaled, predicted and inverse-scaled row-wise; each prediction is zipped
with the first daily-summary row of its calendar date (`.iloc[0]` of an
empty selection raises) and the selected row's moon_age cell. -/
def predict_weekly (ops : FloatOps) (cal : Calendar) (ms : ModelStack)
    (today : ℤ) (weather : Option WeatherData) (moonAgeFetch : ℤ → Option ℚ) :
    Except String (List PredictionResponse) :=
  match weather with
  | none => Except.error "気象データの取得に失敗しました。"
  | some w =>
    let hourly_df := w.hourly.map enrichHourly
    let daily_df := w.daily
    do
    let engineered_df ← engineeredTable ops cal ms today hourly_df moonAgeFetch
    let predict_df := engineered_df.ilocSlice 2 9
    let X ← mapME (fun i => selectRow predict_df ms.features_list i)
      (List.range predict_df.nRows)
    let y_pred := X.map (fun r => ms.scalerYInv (ms.predictOne (ms.scalerX r)))
    mapME (fun p : ℕ × ℚ =>
      let i := p.1
      let target := today + (i : ℤ)
      match daily_df.find? (fun d => decide (d.time = target)) with
      | none => Except.error "single positional indexer is out-of-bounds"
      | some daily_info =>
        match predict_df.getCol "moon_age" with
        | none => Except.error "KeyError: moon_age"
        | some mc =>
          Except.ok ⟨target, p.2, mc.getD i none, daily_info.weather_code,
            daily_info.temperature_2m_max, daily_info.temperature_2m_min,
            daily_info.precipitation_probability_max,
            daily_info.wind_direction_10m_dominant⟩) y_pred.enum

/-!  Theorems.  -/

/-- The wrap sub-window as the claim describes it: records whose local
calendar date is the target date with hour ≥ 22, together with records
whose date is the day after the target date with hour = 0. -/
def specWrapWindow (target : ℤ) (r : HourlyRecord) : Prop :=
  (r.time.date = target ∧ 22 ≤ r.time.hour) ∨
  (r.time.date = target + 1 ∧ r.time.hour = 0)

instance specWrapWindow.dec (target : ℤ) (r : HourlyRecord) :
    Decidable (specWrapWindow target r) := by
  unfold specWrapWindow; infer_instance

/-- The 1–4 sub-window as the claim describes it: records of the day
after the target date with hour between 1 and 4 inclusive. -/
def specEarlyWindow (target : ℤ) (r : HourlyRecord) : Prop :=
  r.time.date = target + 1 ∧ 1 ≤ r.time.hour ∧ r.time.hour ≤ 4

instance specEarlyWindow.dec (target : ℤ) (r : HourlyRecord) :
    Decidable (specEarlyWindow target r) := by
  unfold specEarlyWindow; infer_instance

/-- C3: the wrap sub-window used for temperature_mean_22_0 and
precipitation_sum_22_0 keeps exactly the hourly records with
(date = target ∧ hour ≥ 22) ∨ (date = target+1 ∧ hour = 0) — the Python
`&`-over-`|` precedence resolves the unparenthesized mask this way — and
the 1–4 sub-window keeps exactly the records with date = target+1 and
1 ≤ hour ≤ 4. -/
theorem C3_wrap_windows (target : ℤ) (df : List HourlyRecord) :
    tp_22_00 target df = df.filter (fun r => decide (specWrapWindow target r)) ∧
    tp_01_04 target df = df.filter (fun r => decide (specEarlyWindow target r)) ∧
    (∀ r : HourlyRecord, r ∈ tp_22_00 target df ↔ r ∈ df ∧ specWrapWindow target r) ∧
    (∀ r : HourlyRecord, r ∈ tp_01_04 target df ↔ r ∈ df ∧ specEarlyWindow target r) := by
  have h1 : tp_22_00 target df = df.filter (fun r => decide (specWrapWindow target r)) := by
    apply List.filter_congr
    intro r _
    simp [specWrapWindow, Timestamp.date]
  have h2 : tp_01_04 target df = df.filter (fun r => decide (specEarlyWindow target r)) := by
    apply List.filter_congr
    intro r _
    simp [specEarlyWindow, Timestamp.date]
  refine ⟨h1, h2, ?_, ?_⟩
  · intro r
    rw [h1, List.mem_filter]
    simp
  · intro r
    rw [h2, List.mem_filter]
    simp

/-- Bridge between the explicit Int.emod of the embedding (Python `%`)
and the `%` notation the simp normal form uses. -/
theorem int_emod_eq_mod (a b : ℤ) : a.emod b = a % b := rfl

/-- Taking emod 16 of a nonnegative integer agrees with ℕ-level mod 16
after toNat. -/
theorem emod16_toNat (a : ℤ) (h : 0 ≤ a) : (a.emod 16).toNat = a.toNat % 16 := by
  obtain ⟨m, rfl⟩ := Int.eq_ofNat_of_zero_le h
  rw [int_emod_eq_mod]
  omega

/-- C9: for 0 ≤ d ≤ 360, degree_to_direction returns the label at index
⌊d/22.5 + 0.5⌋ % 16 of the fixed 16-label list (truncation = floor on a
nonnegative argument); the boundary cases 0 ↦ N (北), 11.24 ↦ N,
11.25 ↦ NNE (北北東), 360 ↦ N; and a NaN input returns the empty label. -/
theorem C9_degree_to_direction :
    (∀ d : ℚ, 0 ≤ d → d ≤ 360 →
      ∃ h : (⌊d / 22.5 + 1/2⌋.toNat % 16) < DIRECTIONS.length,
        degree_to_direction (some d) = DIRECTIONS.get ⟨⌊d / 22.5 + 1/2⌋.toNat % 16, h⟩) ∧
    degree_to_direction none = "" ∧
    degree_to_direction (some 0) = "北" ∧
    degree_to_direction (some (281/25)) = "北" ∧
    degree_to_direction (some (45/4)) = "北北東" ∧
    degree_to_direction (some 360) = "北" := by
  refine ⟨?_, rfl, ?_, ?_, ?_, ?_⟩
  · intro d hd0 _
    have h05 : (d / 22.5 + 0.5 : ℚ) = d / 22.5 + 1/2 := by norm_num
    have harg : (0 : ℚ) ≤ d / 22.5 + 1/2 := by
      have hq : (0 : ℚ) ≤ d / 22.5 := div_nonneg hd0 (by norm_num)
      linarith
    have hfl : (0 : ℤ) ≤ ⌊(d / 22.5 + 1/2 : ℚ)⌋ := Int.floor_nonneg.mpr harg
    have hlen : (⌊d / 22.5 + 1/2⌋.toNat % 16) < DIRECTIONS.length := by
      have h16 : ⌊(d / 22.5 + 1/2 : ℚ)⌋.toNat % 16 < 16 := Nat.mod_lt _ (by norm_num)
      simpa [DIRECTIONS] using h16
    refine ⟨hlen, ?_⟩
    have htr : pyTrunc (d / 22.5 + 1/2) = ⌊(d / 22.5 + 1/2 : ℚ)⌋ := by
      unfold pyTrunc
      rw [if_pos harg]
    show DIRECTIONS.getD ((pyTrunc (d / 22.5 + 0.5)).emod 16).toNat "" = _
    rw [h05, htr, emod16_toNat _ hfl, List.getD_eq_getElem DIRECTIONS "" hlen,
      List.get_eq_getElem]
  · norm_num [degree_to_direction, pyTrunc, DIRECTIONS, int_emod_eq_mod]
  · norm_num [degree_to_direction, pyTrunc, DIRECTIONS, int_emod_eq_mod]
  · norm_num [degree_to_direction, pyTrunc, DIRECTIONS, int_emod_eq_mod]
  · norm_num [degree_to_direction, pyTrunc, DIRECTIONS, int_emod_eq_mod]

/-- Witness for C9 at the concrete degree 100 (sector index 4, 東 = E). -/
theorem C9_degree_to_direction_witness :
    ∃ h : (⌊(100 : ℚ) / 22.5 + 1/2⌋.toNat % 16) < DIRECTIONS.length,
      degree_to_direction (some 100) = DIRECTIONS.get ⟨⌊(100 : ℚ) / 22.5 + 1/2⌋.toNat % 16, h⟩ :=
  C9_degree_to_direction.1 100 (by norm_num) (by norm_num)

/-- C10: whenever mean_wind_direction returns a present value, that value
is an integer sector index in 0..15 (it ends with a Python `% 16`, which
is Int.emod, nonnegative and below 16). -/
theorem C10_mean_wind_direction_range (ops : FloatOps) (ds : List String) (v : ℤ)
    (h : mean_wind_direction ops ds = some v) : 0 ≤ v ∧ v < 16 := by
  unfold mean_wind_direction at h
  by_cases hlen : ((ds.filter
      (fun d => (List.lookup d DIRECTION_MAP).isSome)).filterMap
        (direction_to_radian ops)).length = 0
  · simp [hlen] at h
  · simp only [hlen, if_false] at h
    obtain rfl : _ = v := Option.some_injective _ h
    exact ⟨Int.emod_nonneg _ (by norm_num), Int.emod_lt_of_pos _ (by norm_num)⟩

/-- Witness for C10 at the concrete input ["北"] under the all-zero
float ops, where the returned sector is 0. -/
theorem C10_mean_wind_direction_range_witness : (0 : ℤ) ≤ 0 ∧ (0 : ℤ) < 16 :=
  C10_mean_wind_direction_range zeroOps ["北"] 0
    (by simp +decide [mean_wind_direction, direction_to_radian, DIRECTION_MAP, zeroOps, npRound])

/-- The retry loop consumes at most `left` attempts. -/
theorem fetchAux_attempts_le (V : Type) (s : ℕ → FetchOutcome V) (left : ℕ) :
    ∀ a d, (fetchAux V s left a d).attempts ≤ left := by
  induction left with
  | zero => intro a d; simp [fetchAux]
  | succ n ih =>
    intro a d
    simp only [fetchAux]
    cases hs : s a with
    | ok v => simp
    | appError => simp
    | transportError =>
      by_cases h : n = 0
      · simp [h]
      · simp only [h, if_false]
        have := ih (a + 1) (d * 2)
        omega

/-- C5: every fetch makes at most MAX_RETRIES = 3 attempts; two transport
errors followed by a success return the value after exactly the two
backoff delays 1 and 2; transport errors on all three attempts return an
absent result after the same two delays and no further delay; an
application-level error at attempt k (preceded by transport errors only)
returns an absent result immediately, with k+1 attempts and only the k
delays already slept. -/
theorem C5_retry_backoff :
    (∀ (V : Type) (script : ℕ → FetchOutcome V), (fetchWithRetry V script).attempts ≤ 3) ∧
    (∀ (V : Type) (script : ℕ → FetchOutcome V) (v : V),
      script 0 = FetchOutcome.transportError → script 1 = FetchOutcome.transportError →
      script 2 = FetchOutcome.ok v →
      fetchWithRetry V script = ⟨some v, [1, 2], 3⟩) ∧
    (∀ (V : Type) (script : ℕ → FetchOutcome V),
      (∀ i, i < 3 → script i = FetchOutcome.transportError) →
      fetchWithRetry V script = ⟨none, [1, 2], 3⟩) ∧
    (∀ (V : Type) (script : ℕ → FetchOutcome V) (k : ℕ), k < 3 →
      script k = FetchOutcome.appError →
      (∀ j, j < k → script j = FetchOutcome.transportError) →
      fetchWithRetry V script = ⟨none, List.take k [1, 2], k + 1⟩) := by
  refine ⟨?_, ?_, ?_, ?_⟩
  · intro V script
    exact fetchAux_attempts_le V script MAX_RETRIES 0 RETRY_DELAY
  · intro V script v h0 h1 h2
    simp [fetchWithRetry, MAX_RETRIES, RETRY_DELAY, fetchAux, h0, h1, h2]
  · intro V script h
    simp [fetchWithRetry, MAX_RETRIES, RETRY_DELAY, fetchAux,
      h 0 (by norm_num), h 1 (by norm_num), h 2 (by norm_num)]
  · intro V script k hk ha hj
    interval_cases k
    · simp [fetchWithRetry, MAX_RETRIES, RETRY_DELAY, fetchAux, ha]
    · simp [fetchWithRetry, MAX_RETRIES, RETRY_DELAY, fetchAux, ha, hj 0 (by norm_num)]
    · simp [fetchWithRetry, MAX_RETRIES, RETRY_DELAY, fetchAux, ha,
        hj 0 (by norm_num), hj 1 (by norm_num)]

/-- Witness for C5: a fetch whose first two attempts hit transport errors
and whose third succeeds with 42, observed to return 42 after delays 1
and 2 in 3 attempts. -/
theorem C5_retry_backoff_witness :
    fetchWithRetry ℕ (fun n => match n with
      | 0 => FetchOutcome.transportError
      | 1 => FetchOutcome.transportError
      | _ => FetchOutcome.ok 42) = ⟨some 42, [1, 2], 3⟩ :=
  C5_retry_backoff.2.1 ℕ _ 42 rfl rfl rfl

/-- Looking a key up in an association list after mapping its values. -/
theorem lookup_map_value {β γ : Type} (g : β → γ) (k : String) (l : List (String × β)) :
    List.lookup k (l.map (fun p => (p.1, g p.2))) = (List.lookup k l).map g := by
  induction l with
  | nil => rfl
  | cons p t ih =>
    rcases p with ⟨a, b⟩
    by_cases hk : k = a
    · subst hk
      simp [List.lookup]
    · have h1 : (k == a) = false := by simp [hk]
      simp [List.lookup, h1, ih]

/-- mean_wind_direction is absent exactly when no input label is in the
16-direction vocabulary. -/
theorem mean_wind_direction_eq_none_iff (ops : FloatOps) (ds : List String) :
    mean_wind_direction ops ds = none ↔
      ∀ d ∈ ds, List.lookup d DIRECTION_MAP = none := by
  constructor
  · intro hnone d hd
    by_contra hne
    obtain ⟨idx, hidx⟩ := Option.ne_none_iff_exists.mp hne
    have hdf : d ∈ ds.filter (fun d => (List.lookup d DIRECTION_MAP).isSome) :=
      List.mem_filter.mpr ⟨hd, by simp [← hidx]⟩
    have hrad : (2 * ops.pi * idx / 16) ∈
        (ds.filter (fun d => (List.lookup d DIRECTION_MAP).isSome)).filterMap
          (direction_to_radian ops) :=
      List.mem_filterMap.mpr ⟨d, hdf, by simp [direction_to_radian, ← hidx]⟩
    have hlen : ((ds.filter (fun d => (List.lookup d DIRECTION_MAP).isSome)).filterMap
        (direction_to_radian ops)).length ≠ 0 := by
      intro h0
      rw [List.length_eq_zero] at h0
      rw [h0] at hrad
      simp at hrad
    unfold mean_wind_direction at hnone
    simp only [hlen, if_false] at hnone
    exact Option.some_ne_none _ hnone
  · intro hall
    have hfil : ds.filter (fun d => (List.lookup d DIRECTION_MAP).isSome) = [] := by
      rw [List.filter_eq_nil_iff]
      intro a ha
      simp [hall a ha]
    unfold mean_wind_direction
    simp [hfil]

/-- C2 (counterexample): with a single in-window hourly record whose wind
label "" is outside the vocabulary, mean_wind_direction is absent, yet the
record returned by create_features_for_day holds the present value 0 for
wind_direction_mean: the final fillna(0) substitutes 0 for the absence
instead of passing it to the caller. -/
theorem C2_counterexample :
    mean_wind_direction zeroOps [""] = none ∧
    List.lookup "wind_direction_mean"
      (create_features_for_day zeroOps zeroCal 0 [⟨⟨0, 1200⟩, none, none, none, ""⟩] 15)
      = some (some 0) := by
  constructor
  · simp +decide [mean_wind_direction, DIRECTION_MAP]
  · simp +decide [create_features_for_day, create_features_for_day_raw, Series.fillna0,
      wind_window, tp_window, tp_10_13, tp_14_17, tp_18_21, tp_22_00, tp_01_04,
      mean_wind_direction, direction_to_radian, DIRECTION_MAP, Timestamp.le,
      Timestamp.date, Timestamp.hour, seriesMean, seriesMax, seriesMin, seriesSum,
      seriesStd, dropna, zeroOps, zeroCal, npRound]

/-- C2 (amended): mean_wind_direction itself returns an absent value
exactly when the input has no label of the 16-label vocabulary — never
the default sector 0 — but the per-day feature build does NOT pass that
absence on: its final fillna(0) step records the present value 0 for
wind_direction_mean instead. -/
theorem C2_amended_absent_filled_to_zero :
    (∀ (ops : FloatOps) (ds : List String),
      mean_wind_direction ops ds = none ↔
        ∀ d ∈ ds, List.lookup d DIRECTION_MAP = none) ∧
    (∀ (ops : FloatOps) (cal : Calendar) (target : ℤ)
        (df : List HourlyRecord) (ma : ℚ),
      (∀ r ∈ wind_window target df, List.lookup r.wind_direction_str DIRECTION_MAP = none) →
      List.lookup "wind_direction_mean" (create_features_for_day ops cal target df ma)
        = some (some 0)) := by
  constructor
  · exact mean_wind_direction_eq_none_iff
  · intro ops cal target df ma hall
    have hwd : mean_wind_direction ops
        ((wind_window target df).map (fun r => r.wind_direction_str)) = none := by
      rw [mean_wind_direction_eq_none_iff]
      intro lbl hlbl
      obtain ⟨r, hr, rfl⟩ := List.mem_map.mp hlbl
      exact hall r hr
    have hraw : List.lookup "wind_direction_mean"
        (create_features_for_day_raw ops cal target df ma) = some none := by
      simp +decide [create_features_for_day_raw, List.lookup, hwd]
    unfold create_features_for_day Series.fillna0
    rw [lookup_map_value (fun c : Cell => some (c.getD 0)) _ _, hraw]
    simp

/-- The fixed key list of the per-day feature record, in dict insertion
order. -/
def FEATURE_KEYS : List String :=
  ["date", "year", "month", "day", "weekday", "week_of_year", "week_of_month",
   "day_of_year", "is_weekend", "is_holiday", "moon_age",
   "temperature_mean", "temperature_max", "temperature_min", "temperature_std",
   "temperature_mean_10_13", "temperature_mean_14_17", "temperature_mean_18_21",
   "temperature_mean_22_0", "temperature_mean_1_4",
   "precipitation_sum", "precipitation_binary",
   "precipitation_sum_10_13", "precipitation_sum_14_17", "precipitation_sum_18_21",
   "precipitation_sum_22_0", "precipitation_sum_1_4",
   "wind_speed_mean", "wind_speed_max", "wind_speed_min", "wind_speed_std",
   "wind_direction_mean"]

/-- The raw per-day record always has exactly the fixed keys. -/
theorem create_raw_keys (ops : FloatOps) (cal : Calendar) (target : ℤ)
    (df : List HourlyRecord) (ma : ℚ) :
    (create_features_for_day_raw ops cal target df ma).map Prod.fst = FEATURE_KEYS := rfl

/-- The filled per-day record has the same fixed keys. -/
theorem create_keys (ops : FloatOps) (cal : Calendar) (target : ℤ)
    (df : List HourlyRecord) (ma : ℚ) :
    (create_features_for_day ops cal target df ma).map Prod.fst = FEATURE_KEYS := by
  have h := create_raw_keys ops cal target df ma
  unfold create_features_for_day Series.fillna0
  rw [List.map_map, ← h]
  rfl

/-- Every cell of the filled per-day record is present (line 118 fills
all nulls with 0). -/
theorem create_cells_some (ops : FloatOps) (cal : Calendar) (target : ℤ)
    (df : List HourlyRecord) (ma : ℚ) :
    ∀ p ∈ create_features_for_day ops cal target df ma, p.2.isSome = true := by
  intro p hp
  unfold create_features_for_day Series.fillna0 at hp
  obtain ⟨q, _, rfl⟩ := List.mem_map.mp hp
  rfl

/-- Key membership gives a successful association-list lookup. -/
theorem lookup_isSome_of_mem_keys {β : Type} (k : String) (l : List (String × β))
    (h : k ∈ l.map Prod.fst) : ∃ b, List.lookup k l = some b := by
  induction l with
  | nil => simp at h
  | cons p t ih =>
    rcases p with ⟨a, b⟩
    by_cases hk : k = a
    · subst hk
      exact ⟨b, by simp [List.lookup]⟩
    · have h1 : (k == a) = false := by simp [hk]
      have hmem : k ∈ t.map Prod.fst := by
        rcases List.mem_map.mp h with ⟨q, hq, rfl⟩
        rcases List.mem_cons.mp hq with h0 | h0
        · subst h0; simp at hk
        · exact List.mem_map.mpr ⟨q, h0, rfl⟩
      obtain ⟨c, hc⟩ := ih hmem
      exact ⟨c, by simp [List.lookup, h1, hc]⟩

/-- A successful lookup result is a member of the association list. -/
theorem lookup_mem {β : Type} {k : String} {l : List (String × β)} {b : β}
    (h : List.lookup k l = some b) : (k, b) ∈ l := by
  induction l with
  | nil => simp [List.lookup] at h
  | cons p t ih =>
    rcases p with ⟨a, c⟩
    by_cases hk : k = a
    · subst hk
      simp [List.lookup] at h
      simp [h]
    · have h1 : (k == a) = false := by simp [hk]
      simp only [List.lookup, h1] at h
      exact List.mem_cons_of_mem _ (ih h)

/-- Forward fill does not change a column with no missing cell. -/
theorem ffillColAux_all_some (c : DFCol) (h : ∀ x ∈ c, x.isSome = true) :
    ∀ last, ffillColAux last c = c := by
  induction c with
  | nil => intro last; rfl
  | cons x t ih =>
    intro last
    cases x with
    | none => simpa using h none (by simp)
    | some v =>
      have ht : ∀ x ∈ t, x.isSome = true := fun x hx => h x (by simp [hx])
      simp [ffillColAux, ih ht]

/-- Backward fill does not change a column with no missing cell. -/
theorem bfillCol_all_some (c : DFCol) (h : ∀ x ∈ c, x.isSome = true) :
    bfillCol c = c := by
  unfold bfillCol
  rw [ffillColAux_all_some c.reverse (fun x hx => h x (List.mem_reverse.mp hx)) none,
    List.reverse_reverse]

/-- Assembling rows that share the fixed keys and have no missing cell
yields a table with no missing cell. -/
theorem assemble_all_some (rows : List FeatureRow)
    (hkeys : ∀ r ∈ rows, r.map Prod.fst = FEATURE_KEYS)
    (hsome : ∀ r ∈ rows, ∀ q ∈ r, q.2.isSome = true) :
    ∀ p ∈ assemble rows, ∀ x ∈ p.2, x.isSome = true := by
  cases rows with
  | nil => simp [assemble]
  | cons r0 rest =>
    intro p hp x hx
    unfold assemble at hp
    obtain ⟨q, hq, rfl⟩ := List.mem_map.mp hp
    obtain ⟨r, hr, rfl⟩ := List.mem_map.mp hx
    have hkq : q.1 ∈ r.map Prod.fst := by
      rw [hkeys r hr, ← hkeys r0 (by simp)]
      exact List.mem_map.mpr ⟨q, hq, rfl⟩
    obtain ⟨b, hb⟩ := lookup_isSome_of_mem_keys q.1 r hkq
    have hbs := hsome r hr (q.1, b) (lookup_mem hb)
    simp only [hb, Option.getD_some]
    exact hbs

/-- The ffill-then-bfill pass of predict_weekly (lines 170–171) leaves the
assembled per-day table unchanged: every cell is already present. -/
theorem featureTable_eq_assemble (ops : FloatOps) (cal : Calendar) (today : ℤ)
    (hourly : List HourlyRecord) (f : ℤ → Option ℚ) :
    featureTable ops cal today hourly f =
      assemble ((List.range 10).map (fun i : ℕ =>
        create_features_for_day ops cal (today - 2 + (i : ℤ)) hourly
          ((f (today - 2 + (i : ℤ))).getD 15))) := by
  unfold featureTable
  have hall : ∀ p ∈ assemble ((List.range 10).map (fun i : ℕ =>
      create_features_for_day ops cal (today - 2 + (i : ℤ)) hourly
        ((f (today - 2 + (i : ℤ))).getD 15))), ∀ x ∈ p.2, x.isSome = true := by
    apply assemble_all_some
    · intro r hr
      obtain ⟨i, _, rfl⟩ := List.mem_map.mp hr
      exact create_keys _ _ _ _ _
    · intro r hr
      obtain ⟨i, _, rfl⟩ := List.mem_map.mp hr
      exact create_cells_some _ _ _ _ _
  unfold DataFrame.ffill DataFrame.bfill ffillCol
  rw [List.map_map]
  have : ∀ p ∈ assemble ((List.range 10).map (fun i : ℕ =>
      create_features_for_day ops cal (today - 2 + (i : ℤ)) hourly
        ((f (today - 2 + (i : ℤ))).getD 15))),
      ((fun p : String × DFCol => (p.1, bfillCol p.2)) ∘
        fun p : String × DFCol => (p.1, ffillColAux none p.2)) p = p := by
    intro p hp
    have h2 := hall p hp
    simp only [Function.comp]
    rw [ffillColAux_all_some p.2 h2 none, bfillCol_all_some p.2 h2]
  rw [List.map_congr_left this]
  simp

/-- C1 (counterexample): a 10-day run (today = 2, dates 0..9) whose hourly
data covers days 1..9 at 12:00 with temperature 5 but has no sample in day
0's window.  Pre-fill, temperature_mean is null exactly in the first row;
the claim then asserts the first row ends up equal to the second row's
value 5 after the table-level ffill/bfill.  Instead, create_features_for_day
fills the null with 0 before the table is assembled, and the final column
starts with 0 ≠ 5. -/
theorem C1_counterexample :
    (featureTable zeroOps zeroCal 2
        [⟨⟨1, 720⟩, some 5, none, none, ""⟩, ⟨⟨2, 720⟩, some 5, none, none, ""⟩,
         ⟨⟨3, 720⟩, some 5, none, none, ""⟩, ⟨⟨4, 720⟩, some 5, none, none, ""⟩,
         ⟨⟨5, 720⟩, some 5, none, none, ""⟩, ⟨⟨6, 720⟩, some 5, none, none, ""⟩,
         ⟨⟨7, 720⟩, some 5, none, none, ""⟩, ⟨⟨8, 720⟩, some 5, none, none, ""⟩,
         ⟨⟨9, 720⟩, some 5, none, none, ""⟩] (fun _ => none)).getCol "temperature_mean"
      = some [some 0, some 5, some 5, some 5, some 5, some 5, some 5, some 5, some 5, some 5] ∧
    List.lookup "temperature_mean"
      (create_features_for_day_raw zeroOps zeroCal 0
        [⟨⟨1, 720⟩, some 5, none, none, ""⟩, ⟨⟨2, 720⟩, some 5, none, none, ""⟩,
         ⟨⟨3, 720⟩, some 5, none, none, ""⟩, ⟨⟨4, 720⟩, some 5, none, none, ""⟩,
         ⟨⟨5, 720⟩, some 5, none, none, ""⟩, ⟨⟨6, 720⟩, some 5, none, none, ""⟩,
         ⟨⟨7, 720⟩, some 5, none, none, ""⟩, ⟨⟨8, 720⟩, some 5, none, none, ""⟩,
         ⟨⟨9, 720⟩, some 5, none, none, ""⟩] 15) = some none ∧
    (0 : ℚ) ≠ 5 := by
  refine ⟨?_, ?_, by norm_num⟩
  · simp +decide [featureTable, create_features_for_day, create_features_for_day_raw,
      Series.fillna0, assemble, DataFrame.ffill, DataFrame.bfill, ffillCol, bfillCol,
      ffillColAux, DataFrame.getCol, List.lookup, tp_window, wind_window, tp_10_13,
      tp_14_17, tp_18_21, tp_22_00, tp_01_04, seriesMean, seriesMax, seriesMin,
      seriesSum, seriesStd, dropna, mean_wind_direction, direction_to_radian,
      DIRECTION_MAP, Timestamp.le, Timestamp.date, Timestamp.hour, zeroOps, zeroCal,
      npRound, List.range_succ]
  · simp +decide [create_features_for_day_raw, List.lookup, tp_window, seriesMean,
      dropna, Timestamp.le]

/-- C1 (amended): missing or empty-window aggregates (mean of an empty
window, std of fewer than two samples) are recorded as null markers in
the per-day feature dict, not errors; but the nulls are resolved within
the per-day build itself — its final fillna(0) replaces every null with 0
before the record is returned — so the assembled table has no nulls, the
table-level ffill-then-bfill pass changes nothing, and a column whose
aggregate is missing in its first row ends up 0, not the second row's
value. -/
theorem C1_amended_nulls_filled_per_day :
    (∀ (ops : FloatOps) (cal : Calendar) (target : ℤ)
        (df : List HourlyRecord) (ma : ℚ),
      dropna ((tp_window target df).map (fun r => r.temperature_2m)) = [] →
      List.lookup "temperature_mean"
        (create_features_for_day_raw ops cal target df ma) = some none) ∧
    (∀ (ops : FloatOps) (cal : Calendar) (target : ℤ)
        (df : List HourlyRecord) (ma : ℚ),
      (dropna ((tp_window target df).map (fun r => r.temperature_2m))).length < 2 →
      List.lookup "temperature_std"
        (create_features_for_day_raw ops cal target df ma) = some none) ∧
    (∀ (ops : FloatOps) (cal : Calendar) (target : ℤ)
        (df : List HourlyRecord) (ma : ℚ) (k : String) (cell : Cell),
      List.lookup k (create_features_for_day ops cal target df ma) = some cell →
      cell.isSome = true) ∧
    (∀ (ops : FloatOps) (cal : Calendar) (today : ℤ)
        (hourly : List HourlyRecord) (f : ℤ → Option ℚ),
      featureTable ops cal today hourly f =
        assemble ((List.range 10).map (fun i : ℕ =>
          create_features_for_day ops cal (today - 2 + (i : ℤ)) hourly
            ((f (today - 2 + (i : ℤ))).getD 15)))) := by
  refine ⟨?_, ?_, ?_, featureTable_eq_assemble⟩
  · intro ops cal target df ma h
    simp +decide [create_features_for_day_raw, List.lookup, seriesMean, h]
  · intro ops cal target df ma h
    have hstd : seriesStd ops ((tp_window target df).map (fun r => r.temperature_2m))
        = none := by
      unfold seriesStd
      rw [if_pos h]
    simp +decide [create_features_for_day_raw, List.lookup, hstd]
  · intro ops cal target df ma k cell h
    exact create_cells_some ops cal target df ma (k, cell) (lookup_mem h)

/-- Witness for C1 (amended): the empty-window conjunct applied to the
empty hourly table, where temperature_mean is recorded as a null marker. -/
theorem C1_amended_nulls_filled_per_day_witness :
    List.lookup "temperature_mean"
      (create_features_for_day_raw zeroOps zeroCal 0 [] 0) = some none :=
  C1_amended_nulls_filled_per_day.1 zeroOps zeroCal 0 [] 0 rfl

/-- Witness for C2 (amended): the inner implication applied to a concrete
one-record table whose only wind label is "". -/
theorem C2_amended_absent_filled_to_zero_witness :
    List.lookup "wind_direction_mean"
      (create_features_for_day zeroOps zeroCal 0 [⟨⟨0, 1230⟩, none, none, none, "x"⟩] 15)
      = some (some 0) :=
  C2_amended_absent_filled_to_zero.2 zeroOps zeroCal 0
    [⟨⟨0, 1230⟩, none, none, none, "x"⟩] 15
    (by
      intro r hr
      simp +decide [wind_window, Timestamp.le, DIRECTION_MAP] at hr
      rw [hr]
      simp +decide [DIRECTION_MAP])

/-- Append a column name the way pandas column assignment does: no change
when present, appended at the end when new. -/
def addName (ns : List String) (n : String) : List String :=
  if ns.contains n then ns else ns ++ [n]

/-- All columns of a frame have the same length n (the row count). -/
def DataFrame.Uniform (df : DataFrame) (n : ℕ) : Prop :=
  ∀ p ∈ df, p.2.length = n

/-- Looking up a key absent from the first list crosses an append. -/
theorem lookup_append_of_not_mem {β : Type} (k : String) (l1 l2 : List (String × β))
    (h : ¬ k ∈ l1.map Prod.fst) :
    List.lookup k (l1 ++ l2) = List.lookup k l2 := by
  induction l1 with
  | nil => rfl
  | cons p t ih =>
    rcases p with ⟨a, b⟩
    have hk : k ≠ a := by
      intro hk
      exact h (by simp [hk])
    have h1 : (k == a) = false := by simp [hk]
    have ht : ¬ k ∈ t.map Prod.fst := by
      intro hm
      exact h (by simp [hm])
    simp [List.lookup, h1, ih ht]

/-- Looking up the replaced key after an in-place replace. -/
theorem lookup_replace_same {β : Type} (n : String) (c : β) (l : List (String × β))
    (h : n ∈ l.map Prod.fst) :
    List.lookup n (l.map (fun q => if q.1 = n then (n, c) else q)) = some c := by
  induction l with
  | nil => simp at h
  | cons p t ih =>
    rcases p with ⟨a, b⟩
    by_cases hp : a = n
    · subst hp
      simp only [List.map_cons, if_true]
      simp [List.lookup]
    · have h1 : (n == a) = false := by
        simp only [beq_eq_false_iff_ne, ne_eq]
        exact fun hh => hp hh.symm
      have ht : n ∈ t.map Prod.fst := by
        rcases List.mem_map.mp h with ⟨q, hq, rfl⟩
        rcases List.mem_cons.mp hq with h0 | h0
        · subst h0; simp at hp
        · exact List.mem_map.mpr ⟨q, h0, rfl⟩
      simp only [List.map_cons]
      rw [show (if (a, b).1 = n then (n, c) else (a, b)) = (a, b) by simp [hp]]
      simp only [List.lookup, h1]
      exact ih ht

/-- Looking up a different key after an in-place replace. -/
theorem lookup_replace_diff {β : Type} (m n : String) (c : β) (l : List (String × β))
    (hmn : m ≠ n) :
    List.lookup m (l.map (fun q => if q.1 = n then (n, c) else q)) = List.lookup m l := by
  induction l with
  | nil => rfl
  | cons p t ih =>
    rcases p with ⟨a, b⟩
    by_cases hp : a = n
    · subst hp
      have h1 : (m == a) = false := by simp [hmn]
      simp only [List.map_cons, if_true]
      simp only [List.lookup, h1]
      exact ih
    · simp only [List.map_cons]
      rw [show (if (a, b).1 = n then (n, c) else (a, b)) = (a, b) by simp [hp]]
      by_cases hm : m = a
      · subst hm
        simp [List.lookup]
      · have h1 : (m == a) = false := by simp [hm]
        simp only [List.lookup, h1]
        exact ih

/-- Reading the column just written. -/
theorem getCol_setCol_same (df : DataFrame) (n : String) (c : DFCol) :
    (df.setCol n c).getCol n = some c := by
  unfold DataFrame.setCol
  by_cases h : df.colNames.contains n
  · rw [if_pos h]
    exact lookup_replace_same n c df (by simpa [DataFrame.colNames] using h)
  · rw [if_neg h]
    unfold DataFrame.getCol
    rw [lookup_append_of_not_mem n df [(n, c)]
      (by simpa [DataFrame.colNames] using h)]
    simp [List.lookup]

/-- Reading any other column after a write. -/
theorem getCol_setCol_diff (df : DataFrame) (m n : String) (c : DFCol)
    (hmn : m ≠ n) : (df.setCol n c).getCol m = df.getCol m := by
  unfold DataFrame.setCol
  by_cases h : df.colNames.contains n
  · rw [if_pos h]
    exact lookup_replace_diff m n c df hmn
  · rw [if_neg h]
    unfold DataFrame.getCol
    by_cases hm : m ∈ df.map Prod.fst
    · obtain ⟨b, hb⟩ := lookup_isSome_of_mem_keys m df hm
      rw [hb]
      clear h
      induction df with
      | nil => simp at hb
      | cons p t ih =>
        rcases p with ⟨a, b2⟩
        by_cases hma : m = a
        · subst hma
          simp only [List.lookup, beq_self_eq_true] at hb ⊢
          simp [List.lookup] at hb ⊢
          exact hb
        · have h1 : (m == a) = false := by simp [hma]
          simp only [List.cons_append, List.lookup, h1] at hb ⊢
          exact ih (by
            rcases List.mem_map.mp hm with ⟨q, hq, rfl⟩
            rcases List.mem_cons.mp hq with h0 | h0
            · subst h0; simp at hma
            · exact List.mem_map.mpr ⟨q, h0, rfl⟩) hb
    · rw [lookup_append_of_not_mem m df [(n, c)] hm]
      have hnone : List.lookup m df = none := by
        cases hl : List.lookup m df with
        | none => rfl
        | some b => exact absurd (List.mem_map.mpr ⟨(m, b), lookup_mem hl, rfl⟩) hm
      rw [hnone]
      have h1 : (m == n) = false := by simp [hmn]
      simp [List.lookup, h1]

/-- Column names after a write follow pandas assignment. -/
theorem colNames_setCol (df : DataFrame) (n : String) (c : DFCol) :
    (df.setCol n c).colNames = addName df.colNames n := by
  unfold DataFrame.setCol addName
  by_cases h : df.colNames.contains n
  · rw [if_pos h, if_pos h]
    unfold DataFrame.colNames
    rw [List.map_map]
    apply List.map_congr_left
    intro q _
    by_cases hq : q.1 = n
    · simp [hq]
    · simp [hq]
  · rw [if_neg h, if_neg h]
    simp [DataFrame.colNames]

/-- Character-level decomposition of a "_lag1" name. -/
theorem lag1_data (a : String) :
    (a ++ "_lag1").data = a.data ++ ("_lag".data ++ [Char.ofNat 49]) := by
  rw [String.data_append]
  rfl

/-- Character-level decomposition of a "_lag2" name. -/
theorem lag2_data (a : String) :
    (a ++ "_lag2").data = a.data ++ ("_lag".data ++ [Char.ofNat 50]) := by
  rw [String.data_append]
  rfl

/-- A name derived by appending "_lag1" contains "_lag". -/
theorem containsStr_lag1 (a : String) : containsStr (a ++ "_lag1") "_lag" = true := by
  unfold containsStr
  simp only [decide_eq_true_eq]
  exact ⟨a.data, [Char.ofNat 49], by rw [lag1_data, List.append_assoc]⟩

/-- A name derived by appending "_lag2" contains "_lag". -/
theorem containsStr_lag2 (a : String) : containsStr (a ++ "_lag2") "_lag" = true := by
  unfold containsStr
  simp only [decide_eq_true_eq]
  exact ⟨a.data, [Char.ofNat 50], by rw [lag2_data, List.append_assoc]⟩

/-- A name not containing "_lag" is never a "_lag1"-derived name. -/
theorem ne_lag1_of_no_lag {m a : String} (hm : containsStr m "_lag" = false) :
    m ≠ a ++ "_lag1" := by
  intro h
  rw [h, containsStr_lag1] at hm
  cases hm

/-- A name not containing "_lag" is never a "_lag2"-derived name. -/
theorem ne_lag2_of_no_lag {m a : String} (hm : containsStr m "_lag" = false) :
    m ≠ a ++ "_lag2" := by
  intro h
  rw [h, containsStr_lag2] at hm
  cases hm

/-- Appending "_lag1" is injective. -/
theorem lag1_inj {a b : String} (h : a ++ "_lag1" = b ++ "_lag1") : a = b := by
  have hd := congrArg String.data h
  rw [String.data_append, String.data_append] at hd
  have hlen : a.data.length = b.data.length := by
    have hl := congrArg List.length hd
    simp only [List.length_append] at hl
    omega
  exact String.ext (List.append_inj hd hlen).1

/-- Appending "_lag2" is injective. -/
theorem lag2_inj {a b : String} (h : a ++ "_lag2" = b ++ "_lag2") : a = b := by
  have hd := congrArg String.data h
  rw [String.data_append, String.data_append] at hd
  have hlen : a.data.length = b.data.length := by
    have hl := congrArg List.length hd
    simp only [List.length_append] at hl
    omega
  exact String.ext (List.append_inj hd hlen).1

/-- A "_lag1"-derived name never equals a "_lag2"-derived name. -/
theorem lag1_ne_lag2 (a b : String) : a ++ "_lag1" ≠ b ++ "_lag2" := by
  intro h
  have hd := congrArg String.data h
  rw [String.data_append, String.data_append] at hd
  have hlen : a.data.length = b.data.length := by
    have hl := congrArg List.length hd
    rw [List.length_append, List.length_append] at hl
    have e1 : ("_lag1".data).length = 5 := rfl
    have e2 : ("_lag2".data).length = 5 := rfl
    rw [e1, e2] at hl
    omega
  have h2 := (List.append_inj hd hlen).2
  have hne : ("_lag1").data ≠ ("_lag2").data := by decide
  exact hne h2

/-- One lag-loop iteration does not touch a column whose name does not
contain "_lag". -/
theorem lagStep_getCol_no_lag (df : DataFrame) (x m : String)
    (hm : containsStr m "_lag" = false) :
    (lagStep df x).getCol m = df.getCol m := by
  unfold lagStep
  rw [getCol_setCol_diff _ _ _ _ (ne_lag2_of_no_lag hm),
    getCol_setCol_diff _ _ _ _ (ne_lag1_of_no_lag hm)]

/-- The whole lag loop does not touch a column whose name does not
contain "_lag". -/
theorem lagFold_getCol_no_lag (L : List String) (df : DataFrame) (m : String)
    (hm : containsStr m "_lag" = false) :
    (L.foldl lagStep df).getCol m = df.getCol m := by
  induction L generalizing df with
  | nil => rfl
  | cons x t ih =>
    rw [List.foldl_cons, ih (lagStep df x), lagStep_getCol_no_lag df x m hm]

/-- The lag-loop iteration for base column c writes exactly c_lag1 and
c_lag2 as the 1- and 2-row shifts of c, and keeps c itself. -/
theorem lagStep_establish (df : DataFrame) (c : String) (b : DFCol)
    (hc : containsStr c "_lag" = false) (h1 : df.getCol c = some b) :
    (lagStep df c).getCol c = some b ∧
    (lagStep df c).getCol (c ++ "_lag1") = some (shiftCol 1 b) ∧
    (lagStep df c).getCol (c ++ "_lag2") = some (shiftCol 2 b) := by
  have hbase : lagStep df c =
      (df.setCol (c ++ "_lag1") (shiftCol 1 b)).setCol (c ++ "_lag2") (shiftCol 2 b) := by
    unfold lagStep
    rw [show df.getCol c = some b from h1]
    rfl
  refine ⟨?_, ?_, ?_⟩
  · rw [hbase, getCol_setCol_diff _ _ _ _ (ne_lag2_of_no_lag hc),
      getCol_setCol_diff _ _ _ _ (ne_lag1_of_no_lag hc)]
    exact h1
  · rw [hbase, getCol_setCol_diff _ _ _ _ (lag1_ne_lag2 c c), getCol_setCol_same]
  · rw [hbase, getCol_setCol_same]

/-- The lag-loop iteration for a different base x touches neither c nor
its two lag columns. -/
theorem lagStep_preserve_other (df : DataFrame) (x c : String)
    (hc : containsStr c "_lag" = false) (hx : x ≠ c) :
    (lagStep df x).getCol c = df.getCol c ∧
    (lagStep df x).getCol (c ++ "_lag1") = df.getCol (c ++ "_lag1") ∧
    (lagStep df x).getCol (c ++ "_lag2") = df.getCol (c ++ "_lag2") := by
  unfold lagStep
  refine ⟨?_, ?_, ?_⟩
  · rw [getCol_setCol_diff _ _ _ _ (ne_lag2_of_no_lag hc),
      getCol_setCol_diff _ _ _ _ (ne_lag1_of_no_lag hc)]
  · rw [getCol_setCol_diff _ _ _ _ (lag1_ne_lag2 c x),
      getCol_setCol_diff _ _ _ _ (fun h => hx (lag1_inj h).symm)]
  · rw [getCol_setCol_diff _ _ _ _ (fun h => hx (lag2_inj h).symm),
      getCol_setCol_diff _ _ _ _ (fun h => lag1_ne_lag2 x c h.symm)]

/-- Once c and its lag columns hold the final values, the rest of the lag
loop keeps them (a repeated base rewrites the same values). -/
theorem lagFold_keeps (L : List String) (df : DataFrame) (c : String) (b : DFCol)
    (hc : containsStr c "_lag" = false)
    (hL : ∀ x ∈ L, containsStr x "_lag" = false)
    (h1 : df.getCol c = some b)
    (h2 : df.getCol (c ++ "_lag1") = some (shiftCol 1 b))
    (h3 : df.getCol (c ++ "_lag2") = some (shiftCol 2 b)) :
    (L.foldl lagStep df).getCol c = some b ∧
    (L.foldl lagStep df).getCol (c ++ "_lag1") = some (shiftCol 1 b) ∧
    (L.foldl lagStep df).getCol (c ++ "_lag2") = some (shiftCol 2 b) := by
  induction L generalizing df with
  | nil => exact ⟨h1, h2, h3⟩
  | cons x t ih =>
    rw [List.foldl_cons]
    by_cases hx : x = c
    · subst hx
      obtain ⟨k1, k2, k3⟩ := lagStep_establish df x b hc h1
      exact ih (lagStep df x) (fun y hy => hL y (List.mem_cons_of_mem x hy)) k1 k2 k3
    · obtain ⟨k1, k2, k3⟩ := lagStep_preserve_other df x c hc hx
      exact ih (lagStep df x) (fun y hy => hL y (List.mem_cons_of_mem x hy))
        (k1.trans h1) (k2.trans h2) (k3.trans h3)

/-- Running the lag loop over a list containing base column c leaves
c_lag1 and c_lag2 holding the 1- and 2-row shifts of c's (unchanged)
column. -/
theorem lagFold_sets (L : List String) (df : DataFrame) (c : String) (b : DFCol)
    (hc : containsStr c "_lag" = false)
    (hL : ∀ x ∈ L, containsStr x "_lag" = false)
    (hmem : c ∈ L) (h1 : df.getCol c = some b) :
    (L.foldl lagStep df).getCol c = some b ∧
    (L.foldl lagStep df).getCol (c ++ "_lag1") = some (shiftCol 1 b) ∧
    (L.foldl lagStep df).getCol (c ++ "_lag2") = some (shiftCol 2 b) := by
  induction L generalizing df with
  | nil => cases hmem
  | cons x t ih =>
    rw [List.foldl_cons]
    by_cases hx : x = c
    · subst hx
      obtain ⟨k1, k2, k3⟩ := lagStep_establish df x b hc h1
      exact lagFold_keeps t (lagStep df x) x b hc
        (fun y hy => hL y (List.mem_cons_of_mem x hy)) k1 k2 k3
    · have hct : c ∈ t := by
        rcases List.mem_cons.mp hmem with h0 | h0
        · exact absurd h0.symm hx
        · exact h0
      have hpres := lagStep_getCol_no_lag df x c hc
      exact ih (lagStep df x) (fun y hy => hL y (List.mem_cons_of_mem x hy)) hct
        (hpres.trans h1)

/-- Success of a column read is exactly presence of the column. -/
theorem colE_eq_ok (df : DataFrame) (n : String) (c : DFCol) :
    df.colE n = Except.ok c ↔ df.getCol n = some c := by
  unfold DataFrame.colE
  cases h : df.getCol n <;> simp

/-- A bound Except computation returns ok exactly when both stages do. -/
theorem bind_eq_ok {α β : Type} (e : Except String α) (k : α → Except String β) (v : β) :
    e >>= k = Except.ok v ↔ ∃ a, e = Except.ok a ∧ k a = Except.ok v := by
  cases e <;> simp [Bind.bind, Except.bind]

/-- Pure/return in the Except monad is ok. -/
theorem pure_eq_ok {β : Type} (v : β) : (pure v : Except String β) = Except.ok v := rfl

/-- Every member is bounded by the max-fold of a list of naturals. -/
theorem foldr_max_ge (l : List ℕ) : ∀ y ∈ l, y ≤ l.foldr max 0 := by
  induction l with
  | nil => simp
  | cons x t ih =>
    intro y hy
    rcases List.mem_cons.mp hy with h0 | h0
    · subst h0
      exact le_max_left _ _
    · exact le_trans (ih y h0) (le_max_right _ _)

/-- The max-fold of a list of naturals is 0 or attained by a member. -/
theorem foldr_max_mem (l : List ℕ) : l.foldr max 0 = 0 ∨ l.foldr max 0 ∈ l := by
  induction l with
  | nil => simp
  | cons x t ih =>
    rcases le_or_lt (t.foldr max 0) x with h | h
    · right
      simp [List.foldr_cons, max_eq_left h]
    · have hx : max x (t.foldr max 0) = t.foldr max 0 := max_eq_right (le_of_lt h)
      rcases ih with h0 | h0
      · left
        simp only [List.foldr_cons, hx]
        exact h0
      · right
        simp only [List.foldr_cons, hx]
        exact List.mem_cons_of_mem _ h0

/-- The min-fold of a list stays among the seed and the members. -/
theorem foldl_min_mem (h : ℚ) (t : List ℚ) : t.foldl min h ∈ h :: t := by
  induction t generalizing h with
  | nil => simp
  | cons y ys ih =>
    have hm := ih (min h y)
    rw [List.foldl_cons]
    rcases List.mem_cons.mp hm with h0 | h0
    · rw [h0]
      rcases min_choice h y with hc | hc <;> rw [hc] <;> simp
    · exact List.mem_cons_of_mem _ (List.mem_cons_of_mem _ h0)

/-- The multiplicity max of a nonempty list is attained by a member. -/
theorem maxCount_attained (xs : List ℚ) (h : xs ≠ []) :
    ∃ x1 ∈ xs, xs.count x1 = (xs.map (fun x => xs.count x)).foldr max 0 := by
  rcases List.exists_mem_of_ne_nil xs h with ⟨x0, hx0⟩
  have hmax0 := foldr_max_ge (xs.map (fun x => xs.count x)) (xs.count x0)
    (List.mem_map.mpr ⟨x0, hx0, rfl⟩)
  have hpos : 0 < xs.count x0 := List.count_pos_iff.mpr hx0
  have hattain : (xs.map (fun x => xs.count x)).foldr max 0 ∈
      xs.map (fun x => xs.count x) := by
    rcases foldr_max_mem (xs.map (fun x => xs.count x)) with h0 | h0
    · omega
    · exact h0
  obtain ⟨x1, hx1, hcx1⟩ := List.mem_map.mp hattain
  exact ⟨x1, hx1, hcx1⟩

/-- pandas mode()[0] of a nonempty list is a member of the list. -/
theorem modeFirst_mem (xs : List ℚ) (h : xs ≠ []) : modeFirst xs ∈ xs := by
  obtain ⟨x1, hx1, hcx1⟩ := maxCount_attained xs h
  have hcand : x1 ∈ xs.filter
      (fun x => xs.count x = (xs.map (fun x => xs.count x)).foldr max 0) :=
    List.mem_filter.mpr ⟨hx1, by simp [hcx1]⟩
  unfold modeFirst
  cases hf : xs.filter
      (fun x => xs.count x = (xs.map (fun x => xs.count x)).foldr max 0) with
  | nil =>
    rw [hf] at hcand
    cases hcand
  | cons m t =>
    simp only [hf]
    have hmem := foldl_min_mem m t
    rw [← hf] at hmem
    exact List.mem_of_mem_filter hmem

/-- pandas mode()[0] has maximal multiplicity in the list. -/
theorem modeFirst_count_ge (xs : List ℚ) (h : xs ≠ []) :
    ∀ y ∈ xs, xs.count y ≤ xs.count (modeFirst xs) := by
  intro y hy
  have hy2 := foldr_max_ge (xs.map (fun x => xs.count x)) (xs.count y)
    (List.mem_map.mpr ⟨y, hy, rfl⟩)
  obtain ⟨x1, hx1, hcx1⟩ := maxCount_attained xs h
  have hcand : x1 ∈ xs.filter
      (fun x => xs.count x = (xs.map (fun x => xs.count x)).foldr max 0) :=
    List.mem_filter.mpr ⟨hx1, by simp [hcx1]⟩
  unfold modeFirst
  cases hf : xs.filter
      (fun x => xs.count x = (xs.map (fun x => xs.count x)).foldr max 0) with
  | nil =>
    rw [hf] at hcand
    cases hcand
  | cons m t =>
    simp only [hf]
    have hmem := foldl_min_mem m t
    rw [← hf] at hmem
    have hflt := List.of_mem_filter hmem
    have hcount : xs.count (t.foldl min m) =
        (xs.map (fun x => xs.count x)).foldr max 0 := by
      simpa using hflt
    rw [hcount]
    exact hy2

/-- The remap of line 131 always lands in the vocabulary (for a nonempty
class list). -/
theorem remapCell_mem (classes : List ℚ) (h : classes ≠ []) (cell : Cell) :
    remapCell classes cell ∈ classes := by
  unfold remapCell
  cases cell with
  | none => exact modeFirst_mem classes h
  | some x =>
    by_cases hx : x ∈ classes
    · simp [hx]
    · simp only [hx, if_false]
      exact modeFirst_mem classes h

/-- Out-of-vocabulary cells — NaN included — are all remapped to the one
fallback value mode()[0]. -/
theorem remapCell_oov (classes : List ℚ) (cell : Cell)
    (h : ∀ x, cell = some x → x ∉ classes) :
    remapCell classes cell = modeFirst classes := by
  unfold remapCell
  cases cell with
  | none => rfl
  | some x => simp [h x rfl]

/-- C8: in _engineer_features every wind-direction cell outside the
encoder's vocabulary — a NaN cell included — is remapped before encoding:
the final wind_direction_mean column is the remap of the input column,
the encoded column applies the encoder to the remapped values only (no
out-of-vocabulary value reaches it, since every remapped cell is in the
vocabulary), and the fallback is the single deterministic value
mode()[0] of the fixed class list — a member of maximal multiplicity. -/
theorem C8_oov_remap (ops : FloatOps) (ms : ModelStack) (df edf : DataFrame)
    (w : DFCol) (hcls : ms.classes ≠ [])
    (hw : df.getCol "wind_direction_mean" = some w)
    (hok : _engineer_features ops ms df = Except.ok edf) :
    edf.getCol "wind_direction_mean"
      = some (w.map (fun cell => some (remapCell ms.classes cell))) ∧
    edf.getCol "wind_direction_encoded"
      = some (w.map (fun cell => some (ms.leTransform (remapCell ms.classes cell)))) ∧
    (∀ cell : Cell, remapCell ms.classes cell ∈ ms.classes) ∧
    (∀ cell : Cell, (∀ x, cell = some x → x ∉ ms.classes) →
      remapCell ms.classes cell = modeFirst ms.classes) ∧
    modeFirst ms.classes ∈ ms.classes ∧
    (∀ y ∈ ms.classes, ms.classes.count y ≤ ms.classes.count (modeFirst ms.classes)) := by
  unfold _engineer_features at hok
  simp only [bind_eq_ok, colE_eq_ok, pure_eq_ok, Except.ok.injEq] at hok
  obtain ⟨c1, h1, c2, h2, c3, h3, a, h4, b, h5, w0, h6, w1, h7, hfin⟩ := hok
  rw [getCol_setCol_diff _ _ _ _ (by decide), getCol_setCol_diff _ _ _ _ (by decide),
    getCol_setCol_diff _ _ _ _ (by decide), getCol_setCol_diff _ _ _ _ (by decide),
    getCol_setCol_diff _ _ _ _ (by decide), getCol_setCol_diff _ _ _ _ (by decide),
    getCol_setCol_diff _ _ _ _ (by decide), hw] at h6
  obtain rfl : w = w0 := Option.some_injective _ h6
  rw [getCol_setCol_same] at h7
  obtain rfl : w.map (fun cell => some (remapCell ms.classes cell)) = w1 :=
    Option.some_injective _ h7
  refine ⟨?_, ?_, remapCell_mem ms.classes hcls, remapCell_oov ms.classes,
    modeFirst_mem _ hcls, modeFirst_count_ge _ hcls⟩
  · rw [← hfin, lagFold_getCol_no_lag _ _ _ (by decide),
      getCol_setCol_diff _ _ _ _ (by decide), getCol_setCol_same]
  · rw [← hfin, lagFold_getCol_no_lag _ _ _ (by decide), getCol_setCol_same]
    rw [List.map_map]
    rfl

/-- Witness for C8: a one-row frame whose wind label 9 is outside the
class list [3, 7]; the theorem applies, and its fallback conclusion gives
that mode()[0] of the class list is a class. -/
theorem C8_oov_remap_witness : modeFirst [3, 7] ∈ ([3, 7] : List ℚ) := by
  have hok : ∃ edf, _engineer_features zeroOps ⟨[3, 7], id, [], fun _ => [], fun _ => 0, id⟩
      [("moon_age", [some 1]), ("day_of_year", [some 2]), ("weekday", [some 3]),
       ("temperature_mean", [some 4]), ("wind_speed_mean", [some 1]),
       ("wind_direction_mean", [some 9])] = Except.ok edf := by
    unfold _engineer_features
    simp only [bind_eq_ok, colE_eq_ok, pure_eq_ok]
    refine ⟨_, [some 1], rfl, [some 2], ?_, [some 3], ?_, [some 4], ?_, [some 1], ?_,
      [some 9], ?_, _, getCol_setCol_same _ _ _, rfl⟩
    · simp [DataFrame.setCol, DataFrame.colNames, DataFrame.getCol, List.lookup]
    · simp [DataFrame.setCol, DataFrame.colNames, DataFrame.getCol, List.lookup]
    · simp [DataFrame.setCol, DataFrame.colNames, DataFrame.getCol, List.lookup]
    · simp [DataFrame.setCol, DataFrame.colNames, DataFrame.getCol, List.lookup]
    · simp [DataFrame.setCol, DataFrame.colNames, DataFrame.getCol, List.lookup]
  obtain ⟨edf, hok⟩ := hok
  exact (C8_oov_remap zeroOps ⟨[3, 7], id, [], fun _ => [], fun _ => 0, id⟩
    [("moon_age", [some 1]), ("day_of_year", [some 2]), ("weekday", [some 3]),
     ("temperature_mean", [some 4]), ("wind_speed_mean", [some 1]),
     ("wind_direction_mean", [some 9])] edf
    [some 9] (by simp) rfl hok).2.2.2.2.1

/-- Membership in column names survives a write. -/
theorem mem_addName (ns : List String) (n m : String) (h : m ∈ ns) :
    m ∈ addName ns n := by
  unfold addName
  by_cases hc : ns.contains n
  · rw [if_pos hc]; exact h
  · rw [if_neg hc]; exact List.mem_append_left _ h

/-- Membership in column names survives setCol. -/
theorem mem_colNames_setCol (df : DataFrame) (n : String) (c : DFCol) (m : String)
    (h : m ∈ df.colNames) : m ∈ (df.setCol n c).colNames := by
  rw [colNames_setCol]
  exact mem_addName _ _ _ h

/-- A pandas shift(k) column reads as the base column k rows earlier, and
as null where no such row exists. -/
theorem shiftCol_getD (k : ℕ) (b : DFCol) (i : ℕ) (h : i < b.length) :
    (shiftCol k b).getD i none = if i < k then none else b.getD (i - k) none := by
  unfold shiftCol
  rw [List.getD_eq_getElem?_getD, List.getElem?_take, if_pos h]
  by_cases hik : i < k
  · rw [if_pos hik, List.getElem?_append]
    rw [if_pos (by simpa using hik)]
    simp [List.getElem?_replicate, hik]
  · rw [if_neg hik, List.getElem?_append]
    rw [if_neg (by simpa using hik)]
    simp only [List.length_replicate]
    rw [List.getD_eq_getElem?_getD]

/-- C4: for every model-feature column c without "_lag" in its name, not
in the excluded set, and present in the table, engineering adds columns
c_lag1 and c_lag2 equal to c's column shifted one and two rows down:
row i of c_lag1 (resp. c_lag2) holds the base value at row i-1 (resp.
i-2), and is null in the first one (resp. two) rows. -/
theorem C4_lag_features (ops : FloatOps) (ms : ModelStack) (df edf : DataFrame)
    (c : String)
    (hok : _engineer_features ops ms df = Except.ok edf)
    (hfeat : c ∈ ms.features_list)
    (hnolag : containsStr c "_lag" = false)
    (hexcl : c ∉ LAG_EXCLUDED)
    (hpresent : c ∈ df.colNames) :
    ∃ b, edf.getCol c = some b ∧
      edf.getCol (c ++ "_lag1") = some (shiftCol 1 b) ∧
      edf.getCol (c ++ "_lag2") = some (shiftCol 2 b) ∧
      (∀ i : ℕ, i < b.length →
        (shiftCol 1 b).getD i none = if i = 0 then none else b.getD (i - 1) none) ∧
      (∀ i : ℕ, i < b.length →
        (shiftCol 2 b).getD i none = if i < 2 then none else b.getD (i - 2) none) := by
  unfold _engineer_features at hok
  simp only [bind_eq_ok, colE_eq_ok, pure_eq_ok, Except.ok.injEq] at hok
  obtain ⟨c1, h1, c2, h2, c3, h3, a, h4, b0, h5, w0, h6, w1, h7, hfin⟩ := hok
  have hc9 : c ∈ (((((((((df.setCol "moon_age_sin" (mapCol (fun v => ops.sin (2 * ops.pi * v / (2953/100))) c1)).setCol
      "moon_age_cos" (mapCol (fun v => ops.cos (2 * ops.pi * v / (2953/100))) c1)).setCol
      "day_of_year_sin" (mapCol (fun v => ops.sin (2 * ops.pi * v / (36525/100))) c2)).setCol
      "day_of_year_cos" (mapCol (fun v => ops.cos (2 * ops.pi * v / (36525/100))) c2)).setCol
      "weekday_sin" (mapCol (fun v => ops.sin (2 * ops.pi * v / 7)) c3)).setCol
      "weekday_cos" (mapCol (fun v => ops.cos (2 * ops.pi * v / 7)) c3)).setCol
      "temp_x_wind" (zipCols (fun x y => x * y) a b0)).setCol
      "wind_direction_mean" (w0.map (fun cell => some (remapCell ms.classes cell)))).setCol
      "wind_direction_encoded" (w1.map (Option.map ms.leTransform))).colNames := by
    apply mem_colNames_setCol
    apply mem_colNames_setCol
    apply mem_colNames_setCol
    apply mem_colNames_setCol
    apply mem_colNames_setCol
    apply mem_colNames_setCol
    apply mem_colNames_setCol
    apply mem_colNames_setCol
    apply mem_colNames_setCol
    exact hpresent
  obtain ⟨b, hbase⟩ := lookup_isSome_of_mem_keys c _ hc9
  have hmemcols : c ∈ (ms.features_list.filter
      (fun x => !(containsStr x "_lag") &&
        (((((((((df.setCol "moon_age_sin" (mapCol (fun v => ops.sin (2 * ops.pi * v / (2953/100))) c1)).setCol
          "moon_age_cos" (mapCol (fun v => ops.cos (2 * ops.pi * v / (2953/100))) c1)).setCol
          "day_of_year_sin" (mapCol (fun v => ops.sin (2 * ops.pi * v / (36525/100))) c2)).setCol
          "day_of_year_cos" (mapCol (fun v => ops.cos (2 * ops.pi * v / (36525/100))) c2)).setCol
          "weekday_sin" (mapCol (fun v => ops.sin (2 * ops.pi * v / 7)) c3)).setCol
          "weekday_cos" (mapCol (fun v => ops.cos (2 * ops.pi * v / 7)) c3)).setCol
          "temp_x_wind" (zipCols (fun x y => x * y) a b0)).setCol
          "wind_direction_mean" (w0.map (fun cell => some (remapCell ms.classes cell)))).setCol
          "wind_direction_encoded" (w1.map (Option.map ms.leTransform))).colNames.contains x)).filter
      (fun x => !(LAG_EXCLUDED.contains x)) := by
    apply List.mem_filter.mpr
    constructor
    · apply List.mem_filter.mpr
      refine ⟨hfeat, ?_⟩
      rw [hnolag]
      simp only [Bool.not_false, Bool.true_and]
      exact List.elem_eq_true_of_mem hc9
    · simpa using hexcl
  have hL : ∀ x ∈ (ms.features_list.filter
      (fun x => !(containsStr x "_lag") &&
        (((((((((df.setCol "moon_age_sin" (mapCol (fun v => ops.sin (2 * ops.pi * v / (2953/100))) c1)).setCol
          "moon_age_cos" (mapCol (fun v => ops.cos (2 * ops.pi * v / (2953/100))) c1)).setCol
          "day_of_year_sin" (mapCol (fun v => ops.sin (2 * ops.pi * v / (36525/100))) c2)).setCol
          "day_of_year_cos" (mapCol (fun v => ops.cos (2 * ops.pi * v / (36525/100))) c2)).setCol
          "weekday_sin" (mapCol (fun v => ops.sin (2 * ops.pi * v / 7)) c3)).setCol
          "weekday_cos" (mapCol (fun v => ops.cos (2 * ops.pi * v / 7)) c3)).setCol
          "temp_x_wind" (zipCols (fun x y => x * y) a b0)).setCol
          "wind_direction_mean" (w0.map (fun cell => some (remapCell ms.classes cell)))).setCol
          "wind_direction_encoded" (w1.map (Option.map ms.leTransform))).colNames.contains x)).filter
      (fun x => !(LAG_EXCLUDED.contains x)), containsStr x "_lag" = false := by
    intro x hx
    have hx1 := List.mem_of_mem_filter hx
    have hx2 := List.of_mem_filter hx1
    simp only [Bool.and_eq_true] at hx2
    rcases hx2 with ⟨hx3, _⟩
    simpa using hx3
  obtain ⟨k1, k2, k3⟩ := lagFold_sets _ _ c b hnolag hL hmemcols hbase
  rw [hfin] at k1 k2 k3
  refine ⟨b, k1, k2, k3, ?_, ?_⟩
  · intro i hi
    rw [shiftCol_getD 1 b i hi]
    by_cases h0 : i = 0
    · simp [h0]
    · rw [if_neg (by omega), if_neg h0]
  · intro i hi
    exact shiftCol_getD 2 b i hi

/-- Witness for C4: the feature list ["x"] over a one-row frame, where
the engineered table carries x, x_lag1 and x_lag2 with the shift
semantics. -/
theorem C4_lag_features_witness :
    ∃ edf, _engineer_features zeroOps ⟨[0], id, ["x"], fun _ => [], fun _ => 0, id⟩
      [("moon_age", [some 1]), ("day_of_year", [some 1]), ("weekday", [some 1]),
       ("temperature_mean", [some 1]), ("wind_speed_mean", [some 1]),
       ("wind_direction_mean", [some 0]), ("x", [some 7])] = Except.ok edf ∧
    ∃ b, edf.getCol "x" = some b ∧
      edf.getCol ("x" ++ "_lag1") = some (shiftCol 1 b) ∧
      edf.getCol ("x" ++ "_lag2") = some (shiftCol 2 b) ∧
      (∀ i : ℕ, i < b.length →
        (shiftCol 1 b).getD i none = if i = 0 then none else b.getD (i - 1) none) ∧
      (∀ i : ℕ, i < b.length →
        (shiftCol 2 b).getD i none = if i < 2 then none else b.getD (i - 2) none) := by
  have hok : ∃ edf, _engineer_features zeroOps ⟨[0], id, ["x"], fun _ => [], fun _ => 0, id⟩
      [("moon_age", [some 1]), ("day_of_year", [some 1]), ("weekday", [some 1]),
       ("temperature_mean", [some 1]), ("wind_speed_mean", [some 1]),
       ("wind_direction_mean", [some 0]), ("x", [some 7])] = Except.ok edf := by
    unfold _engineer_features
    simp only [bind_eq_ok, colE_eq_ok, pure_eq_ok]
    refine ⟨_, [some 1], rfl, [some 1], ?_, [some 1], ?_, [some 1], ?_, [some 1], ?_,
      [some 0], ?_, _, getCol_setCol_same _ _ _, rfl⟩
    · simp [DataFrame.setCol, DataFrame.colNames, DataFrame.getCol, List.lookup]
    · simp [DataFrame.setCol, DataFrame.colNames, DataFrame.getCol, List.lookup]
    · simp [DataFrame.setCol, DataFrame.colNames, DataFrame.getCol, List.lookup]
    · simp [DataFrame.setCol, DataFrame.colNames, DataFrame.getCol, List.lookup]
    · simp [DataFrame.setCol, DataFrame.colNames, DataFrame.getCol, List.lookup]
  obtain ⟨edf, hok⟩ := hok
  exact ⟨edf, hok, C4_lag_features zeroOps ⟨[0], id, ["x"], fun _ => [], fun _ => 0, id⟩
    _ edf "x" hok (by decide) (by decide) (by decide) (by decide)⟩

/-- The column names present after the cyclical, interaction and encoding
steps of _engineer_features, before the lag loop, when the input table has
the per-day FEATURE_KEYS. -/
def PRE_LAG_COLS : List String :=
  FEATURE_KEYS ++ ["moon_age_sin", "moon_age_cos", "day_of_year_sin", "day_of_year_cos",
    "weekday_sin", "weekday_cos", "temp_x_wind", "wind_direction_encoded"]

/-- The lag base columns _engineer_features selects for a FEATURE_KEYS
input table, as a function of the trained feature list. -/
def cols_for_lag_spec (ms : ModelStack) : List String :=
  (ms.features_list.filter
    (fun c => !(containsStr c "_lag") && PRE_LAG_COLS.contains c)).filter
    (fun c => !(LAG_EXCLUDED.contains c))

/-- The full column-name list of the engineered table for a FEATURE_KEYS
input table. -/
def engineeredColNames (ms : ModelStack) : List String :=
  (cols_for_lag_spec ms).foldl
    (fun ns c => addName (addName ns (c ++ "_lag1")) (c ++ "_lag2")) PRE_LAG_COLS

/-- Column names of one lag-loop iteration. -/
theorem colNames_lagStep (df : DataFrame) (c : String) :
    (lagStep df c).colNames =
      addName (addName df.colNames (c ++ "_lag1")) (c ++ "_lag2") := by
  unfold lagStep
  rw [colNames_setCol, colNames_setCol]

/-- Column names of the whole lag loop. -/
theorem lagFold_colNames (L : List String) (df : DataFrame) :
    (L.foldl lagStep df).colNames =
      L.foldl (fun ns c => addName (addName ns (c ++ "_lag1")) (c ++ "_lag2"))
        df.colNames := by
  induction L generalizing df with
  | nil => rfl
  | cons x t ih =>
    rw [List.foldl_cons, List.foldl_cons, ih, colNames_lagStep]

/-- Membership survives the whole name fold of the lag loop. -/
theorem mem_lag_name_fold (L : List String) (ns : List String) (m : String)
    (h : m ∈ ns) :
    m ∈ L.foldl (fun ns c => addName (addName ns (c ++ "_lag1")) (c ++ "_lag2")) ns := by
  induction L generalizing ns with
  | nil => exact h
  | cons x t ih =>
    rw [List.foldl_cons]
    exact ih _ (mem_addName _ _ _ (mem_addName _ _ _ h))

/-- Lengths after mapCol. -/
theorem mapCol_length (f : ℚ → ℚ) (c : DFCol) : (mapCol f c).length = c.length := by
  simp [mapCol]

/-- Lengths after zipCols. -/
theorem zipCols_length (f : ℚ → ℚ → ℚ) (a b : DFCol) :
    (zipCols f a b).length = min a.length b.length := by
  simp [zipCols]

/-- Lengths after shiftCol. -/
theorem shiftCol_length (k : ℕ) (c : DFCol) : (shiftCol k c).length = c.length := by
  simp [shiftCol]

/-- A looked-up column of a uniform frame has the row count as length. -/
theorem getCol_length (df : DataFrame) (n : ℕ) (m : String) (c : DFCol)
    (hu : df.Uniform n) (h : df.getCol m = some c) : c.length = n :=
  hu (m, c) (lookup_mem h)

/-- setCol with a column of the right length keeps the frame uniform. -/
theorem uniform_setCol (df : DataFrame) (n : ℕ) (m : String) (c : DFCol)
    (hu : df.Uniform n) (hc : c.length = n) : (df.setCol m c).Uniform n := by
  unfold DataFrame.setCol
  by_cases h : df.colNames.contains m
  · rw [if_pos h]
    intro p hp
    obtain ⟨q, hq, rfl⟩ := List.mem_map.mp hp
    by_cases hqm : q.1 = m
    · simp only [hqm, if_true]
      exact hc
    · simp only [hqm, if_false]
      exact hu q hq
  · rw [if_neg h]
    intro p hp
    rcases List.mem_append.mp hp with h0 | h0
    · exact hu p h0
    · rcases List.mem_singleton.mp h0 with rfl
      exact hc

/-- One lag-loop iteration keeps the frame uniform when its base column
is present. -/
theorem lagStep_uniform (df : DataFrame) (n : ℕ) (c : String)
    (hu : df.Uniform n) (hmem : c ∈ df.colNames) : (lagStep df c).Uniform n := by
  obtain ⟨b, hb⟩ := lookup_isSome_of_mem_keys c df hmem
  have hlag : lagStep df c =
      (df.setCol (c ++ "_lag1") (shiftCol 1 b)).setCol (c ++ "_lag2") (shiftCol 2 b) := by
    unfold lagStep
    rw [show df.getCol c = some b from hb]
    rfl
  rw [hlag]
  have hlen : b.length = n := getCol_length df n c b hu hb
  exact uniform_setCol _ n _ _
    (uniform_setCol _ n _ _ hu (by rw [shiftCol_length, hlen]))
    (by rw [shiftCol_length, hlen])

/-- The whole lag loop keeps the frame uniform when every base is
present. -/
theorem lagFold_uniform (L : List String) (df : DataFrame) (n : ℕ)
    (hu : df.Uniform n) (hmem : ∀ x ∈ L, x ∈ df.colNames) :
    (L.foldl lagStep df).Uniform n := by
  induction L generalizing df with
  | nil => exact hu
  | cons x t ih =>
    rw [List.foldl_cons]
    apply ih
    · exact lagStep_uniform df n x hu (hmem x (by simp))
    · intro y hy
      rw [colNames_lagStep]
      exact mem_addName _ _ _ (mem_addName _ _ _ (hmem y (List.mem_cons_of_mem x hy)))

/-- Column names of an assembled nonempty table are the first row's keys. -/
theorem assemble_colNames (r0 : FeatureRow) (rest : List FeatureRow) :
    (assemble (r0 :: rest)).colNames = r0.map Prod.fst := by
  unfold assemble DataFrame.colNames
  rw [List.map_map]
  exact List.map_congr_left (fun q _ => rfl)

/-- Every column of an assembled table has one cell per row. -/
theorem assemble_uniform (rows : List FeatureRow) :
    (assemble rows).Uniform rows.length := by
  cases rows with
  | nil => intro p hp; cases hp
  | cons r0 rest =>
    intro p hp
    obtain ⟨q, _, rfl⟩ := List.mem_map.mp hp
    simp

/-- ffill and bfill keep column names and row counts. -/
theorem ffillColAux_length (c : DFCol) : ∀ last, (ffillColAux last c).length = c.length := by
  induction c with
  | nil => intro last; rfl
  | cons x t ih =>
    intro last
    cases x <;> simp [ffillColAux, ih]

/-- The feature table of predict_weekly has exactly the per-day keys and
10 rows. -/
theorem featureTable_shape (ops : FloatOps) (cal : Calendar) (today : ℤ)
    (hourly : List HourlyRecord) (f : ℤ → Option ℚ) :
    (featureTable ops cal today hourly f).colNames = FEATURE_KEYS ∧
    (featureTable ops cal today hourly f).Uniform 10 := by
  rw [featureTable_eq_assemble]
  have hr : List.range 10 = [0, 1, 2, 3, 4, 5, 6, 7, 8, 9] := rfl
  constructor
  · rw [hr, List.map_cons, assemble_colNames, create_keys]
  · have hu := assemble_uniform ((List.range 10).map (fun i : ℕ =>
      create_features_for_day ops cal (today - 2 + (i : ℤ)) hourly
        ((f (today - 2 + (i : ℤ))).getD 15)))
    simpa using hu

/-- On a table with the per-day keys and 10 rows, _engineer_features
always succeeds, its output has the deterministic engineered column names,
keeps 10 rows, and leaves the moon_age column untouched. -/
theorem engineer_on_features (ops : FloatOps) (ms : ModelStack) (df : DataFrame)
    (hnames : df.colNames = FEATURE_KEYS) (hunif : df.Uniform 10) :
    ∃ edf, _engineer_features ops ms df = Except.ok edf ∧
      edf.colNames = engineeredColNames ms ∧
      edf.Uniform 10 ∧
      edf.getCol "moon_age" = df.getCol "moon_age" := by
  have hmemF : ∀ n : String, n ∈ FEATURE_KEYS → n ∈ df.map Prod.fst := by
    intro n hn
    rw [show df.map Prod.fst = FEATURE_KEYS from hnames]
    exact hn
  obtain ⟨c1, hc1⟩ := lookup_isSome_of_mem_keys "moon_age" df (hmemF _ (by decide))
  obtain ⟨c2, hc2⟩ := lookup_isSome_of_mem_keys "day_of_year" df (hmemF _ (by decide))
  obtain ⟨c3, hc3⟩ := lookup_isSome_of_mem_keys "weekday" df (hmemF _ (by decide))
  obtain ⟨ca, hca⟩ := lookup_isSome_of_mem_keys "temperature_mean" df (hmemF _ (by decide))
  obtain ⟨cb, hcb⟩ := lookup_isSome_of_mem_keys "wind_speed_mean" df (hmemF _ (by decide))
  obtain ⟨w0, hw0⟩ := lookup_isSome_of_mem_keys "wind_direction_mean" df (hmemF _ (by decide))
  have l1 : c1.length = 10 := getCol_length df 10 _ _ hunif hc1
  have l2 : c2.length = 10 := getCol_length df 10 _ _ hunif hc2
  have l3 : c3.length = 10 := getCol_length df 10 _ _ hunif hc3
  have la : ca.length = 10 := getCol_length df 10 _ _ hunif hca
  have lb : cb.length = 10 := getCol_length df 10 _ _ hunif hcb
  have lw : w0.length = 10 := getCol_length df 10 _ _ hunif hw0
  set F1 := df.setCol "moon_age_sin"
    (mapCol (fun v => ops.sin (2 * ops.pi * v / (2953/100))) c1) with hF1
  set F2 := F1.setCol "moon_age_cos"
    (mapCol (fun v => ops.cos (2 * ops.pi * v / (2953/100))) c1) with hF2
  set F3 := F2.setCol "day_of_year_sin"
    (mapCol (fun v => ops.sin (2 * ops.pi * v / (36525/100))) c2) with hF3
  set F4 := F3.setCol "day_of_year_cos"
    (mapCol (fun v => ops.cos (2 * ops.pi * v / (36525/100))) c2) with hF4
  set F5 := F4.setCol "weekday_sin" (mapCol (fun v => ops.sin (2 * ops.pi * v / 7)) c3) with hF5
  set F6 := F5.setCol "weekday_cos" (mapCol (fun v => ops.cos (2 * ops.pi * v / 7)) c3) with hF6
  set F7 := F6.setCol "temp_x_wind" (zipCols (fun x y => x * y) ca cb) with hF7
  set F8 := F7.setCol "wind_direction_mean"
    (w0.map (fun cell => some (remapCell ms.classes cell))) with hF8
  set F9 := F8.setCol "wind_direction_encoded"
    ((w0.map (fun cell => some (remapCell ms.classes cell))).map (Option.map ms.leTransform)) with hF9
  have r2 : F2.getCol "day_of_year" = some c2 := by
    rw [hF2, getCol_setCol_diff _ _ _ _ (by decide), hF1,
      getCol_setCol_diff _ _ _ _ (by decide)]
    exact hc2
  have r3 : F4.getCol "weekday" = some c3 := by
    rw [hF4, getCol_setCol_diff _ _ _ _ (by decide), hF3,
      getCol_setCol_diff _ _ _ _ (by decide), hF2, getCol_setCol_diff _ _ _ _ (by decide),
      hF1, getCol_setCol_diff _ _ _ _ (by decide)]
    exact hc3
  have ra : F6.getCol "temperature_mean" = some ca := by
    rw [hF6, getCol_setCol_diff _ _ _ _ (by decide), hF5,
      getCol_setCol_diff _ _ _ _ (by decide), hF4, getCol_setCol_diff _ _ _ _ (by decide),
      hF3, getCol_setCol_diff _ _ _ _ (by decide), hF2, getCol_setCol_diff _ _ _ _ (by decide),
      hF1, getCol_setCol_diff _ _ _ _ (by decide)]
    exact hca
  have rb : F6.getCol "wind_speed_mean" = some cb := by
    rw [hF6, getCol_setCol_diff _ _ _ _ (by decide), hF5,
      getCol_setCol_diff _ _ _ _ (by decide), hF4, getCol_setCol_diff _ _ _ _ (by decide),
      hF3, getCol_setCol_diff _ _ _ _ (by decide), hF2, getCol_setCol_diff _ _ _ _ (by decide),
      hF1, getCol_setCol_diff _ _ _ _ (by decide)]
    exact hcb
  have rw0 : F7.getCol "wind_direction_mean" = some w0 := by
    rw [hF7, getCol_setCol_diff _ _ _ _ (by decide), hF6,
      getCol_setCol_diff _ _ _ _ (by decide), hF5, getCol_setCol_diff _ _ _ _ (by decide),
      hF4, getCol_setCol_diff _ _ _ _ (by decide), hF3, getCol_setCol_diff _ _ _ _ (by decide),
      hF2, getCol_setCol_diff _ _ _ _ (by decide), hF1, getCol_setCol_diff _ _ _ _ (by decide)]
    exact hw0
  have rw2 : F8.getCol "wind_direction_mean"
      = some (w0.map (fun cell => some (remapCell ms.classes cell))) := by
    rw [hF8, getCol_setCol_same]
  have u1 : F1.Uniform 10 := by
    rw [hF1]; exact uniform_setCol _ _ _ _ hunif (by rw [mapCol_length, l1])
  have u2 : F2.Uniform 10 := by
    rw [hF2]; exact uniform_setCol _ _ _ _ u1 (by rw [mapCol_length, l1])
  have u3 : F3.Uniform 10 := by
    rw [hF3]; exact uniform_setCol _ _ _ _ u2 (by rw [mapCol_length, l2])
  have u4 : F4.Uniform 10 := by
    rw [hF4]; exact uniform_setCol _ _ _ _ u3 (by rw [mapCol_length, l2])
  have u5 : F5.Uniform 10 := by
    rw [hF5]; exact uniform_setCol _ _ _ _ u4 (by rw [mapCol_length, l3])
  have u6 : F6.Uniform 10 := by
    rw [hF6]; exact uniform_setCol _ _ _ _ u5 (by rw [mapCol_length, l3])
  have u7 : F7.Uniform 10 := by
    rw [hF7]; exact uniform_setCol _ _ _ _ u6 (by rw [zipCols_length, la, lb]; simp)
  have u8 : F8.Uniform 10 := by
    rw [hF8]; exact uniform_setCol _ _ _ _ u7 (by simp [lw])
  have u9 : F9.Uniform 10 := by
    rw [hF9]; exact uniform_setCol _ _ _ _ u8 (by simp [lw])
  have hn9 : F9.colNames = PRE_LAG_COLS := by
    rw [hF9, colNames_setCol, hF8, colNames_setCol, hF7, colNames_setCol, hF6,
      colNames_setCol, hF5, colNames_setCol, hF4, colNames_setCol, hF3, colNames_setCol,
      hF2, colNames_setCol, hF1, colNames_setCol, hnames]
    decide
  refine ⟨((ms.features_list.filter
      (fun c => !(containsStr c "_lag") && F9.colNames.contains c)).filter
      (fun c => !(LAG_EXCLUDED.contains c))).foldl lagStep F9, ?_, ?_, ?_, ?_⟩
  · unfold _engineer_features
    simp only [bind_eq_ok, colE_eq_ok, pure_eq_ok, Except.ok.injEq]
    exact ⟨c1, hc1, c2, r2, c3, r3, ca, ra, cb, rb, w0, rw0,
      w0.map (fun cell => some (remapCell ms.classes cell)), rw2, rfl⟩
  · rw [lagFold_colNames, hn9]
    rfl
  · apply lagFold_uniform _ _ _ u9
    intro x hx
    have hx2 := List.of_mem_filter (List.mem_of_mem_filter hx)
    simp only [Bool.and_eq_true] at hx2
    exact List.mem_of_elem_eq_true hx2.2
  · rw [lagFold_getCol_no_lag _ _ _ (by decide), hF9,
      getCol_setCol_diff _ _ _ _ (by decide), hF8, getCol_setCol_diff _ _ _ _ (by decide),
      hF7, getCol_setCol_diff _ _ _ _ (by decide), hF6, getCol_setCol_diff _ _ _ _ (by decide),
      hF5, getCol_setCol_diff _ _ _ _ (by decide), hF4, getCol_setCol_diff _ _ _ _ (by decide),
      hF3, getCol_setCol_diff _ _ _ _ (by decide), hF2, getCol_setCol_diff _ _ _ _ (by decide),
      hF1, getCol_setCol_diff _ _ _ _ (by decide)]

/-- A sequential effectful map whose steps all succeed returns the list
of successes. -/
theorem mapME_ok_of {α β : Type} (f : α → Except String β) (g : α → β)
    (l : List α) (h : ∀ a ∈ l, f a = Except.ok (g a)) :
    mapME f l = Except.ok (l.map g) := by
  induction l with
  | nil => rfl
  | cons a t ih =>
    unfold mapME
    rw [h a (by simp), ih (fun x hx => h x (List.mem_cons_of_mem a hx))]
    rfl

/-- Row slicing keeps the column names. -/
theorem colNames_ilocSlice (df : DataFrame) (a b : ℕ) :
    (df.ilocSlice a b).colNames = df.colNames := by
  unfold DataFrame.ilocSlice DataFrame.colNames
  rw [List.map_map]
  exact List.map_congr_left (fun q _ => rfl)

/-- Row slicing acts cell-wise on a looked-up column. -/
theorem getCol_ilocSlice (df : DataFrame) (a b : ℕ) (n : String) :
    (df.ilocSlice a b).getCol n = (df.getCol n).map (fun c => (c.drop a).take (b - a)) :=
  lookup_map_value (fun c : DFCol => (c.drop a).take (b - a)) n df

/-- Row slicing of a uniform frame is uniform with the sliced count. -/
theorem uniform_ilocSlice (df : DataFrame) (n a b : ℕ) (hu : df.Uniform n) :
    (df.ilocSlice a b).Uniform (min (b - a) (n - a)) := by
  intro p hp
  obtain ⟨q, hq, rfl⟩ := List.mem_map.mp hp
  have := hu q hq
  simp [this]

/-- The row count of a nonempty uniform frame. -/
theorem nRows_eq (df : DataFrame) (n : ℕ) (hu : df.Uniform n) (hne : df ≠ []) :
    df.nRows = n := by
  cases df with
  | nil => exact absurd rfl hne
  | cons p rest => exact hu p (by simp)

/-- Reading row i of a 2-to-9 slice is reading row i+2 of the base. -/
theorem slice_getD (mc : DFCol) (i : ℕ) (hi : i < 7) :
    ((mc.drop 2).take 7).getD i none = mc.getD (i + 2) none := by
  rw [List.getD_eq_getElem?_getD, List.getElem?_take, if_pos hi, List.getElem?_drop,
    List.getD_eq_getElem?_getD, Nat.add_comm]

/-- Indices in an enumerated list are below the length. -/
theorem enum_fst_lt {α : Type} (l : List α) (p : ℕ × α) (h : p ∈ l.enum) :
    p.1 < l.length := by
  have h2 : p ∈ (List.range l.length).zip l := by
    rw [← List.enum_eq_zip_range]
    exact h
  rcases p with ⟨i, x⟩
  have := (List.of_mem_zip h2).1
  simpa using this

/-- Shared success-shape lemma for predict_weekly: when the weather fetch
succeeded, every feature column of the model exists in the engineered
table, and the daily summary covers the seven target dates, the pipeline
returns 7 predictions built from rows 2..8 of the 10-row engineered table
and the matching daily rows. -/
theorem predict_weekly_ok (ops : FloatOps) (cal : Calendar) (ms : ModelStack)
    (today : ℤ) (w : WeatherData) (f : ℤ → Option ℚ)
    (hfeat : ∀ c ∈ ms.features_list, c ∈ engineeredColNames ms)
    (hdaily : ∀ i : ℕ, i < 7 →
      (List.find? (fun d => decide (d.time = today + (i : ℤ))) w.daily).isSome = true) :
    ∃ edf mc preds,
      engineeredTable ops cal ms today (w.hourly.map enrichHourly) f = Except.ok edf ∧
      edf.nRows = 10 ∧
      edf.getCol "moon_age" = some mc ∧
      predict_weekly ops cal ms today (some w) f = Except.ok preds ∧
      preds.length = 7 ∧
      (∀ i (h : i < preds.length),
        (preds.get ⟨i, h⟩).date = today + (i : ℤ) ∧
        (∃ dr, List.find? (fun d => decide (d.time = today + (i : ℤ))) w.daily = some dr ∧
          (preds.get ⟨i, h⟩).weather_code = dr.weather_code ∧
          (preds.get ⟨i, h⟩).temperature_max = dr.temperature_2m_max ∧
          (preds.get ⟨i, h⟩).temperature_min = dr.temperature_2m_min ∧
          (preds.get ⟨i, h⟩).precipitation_probability_max
            = dr.precipitation_probability_max ∧
          (preds.get ⟨i, h⟩).dominant_wind_direction = dr.wind_direction_10m_dominant) ∧
        (preds.get ⟨i, h⟩).moon_age = mc.getD (i + 2) none) := by
  obtain ⟨hftn, hftu⟩ := featureTable_shape ops cal today (w.hourly.map enrichHourly) f
  obtain ⟨edf, hok, hen, heu, hemoon⟩ :=
    engineer_on_features ops ms _ hftn hftu
  have hedfne : edf ≠ [] := by
    intro h0
    have : "date" ∈ edf.colNames := by
      rw [hen]
      exact mem_lag_name_fold _ _ _ (by decide)
    rw [h0] at this
    cases this
  have hnrows : edf.nRows = 10 := nRows_eq edf 10 heu hedfne
  obtain ⟨mc, hmc⟩ := lookup_isSome_of_mem_keys "moon_age"
    (featureTable ops cal today (w.hourly.map enrichHourly) f)
    (by rw [show (featureTable ops cal today (w.hourly.map enrichHourly) f).map Prod.fst
        = FEATURE_KEYS from hftn]; decide)
  have hmoon : edf.getCol "moon_age" = some mc := by rw [hemoon]; exact hmc
  have hmclen : mc.length = 10 := getCol_length _ 10 _ _ hftu hmc
  set pdf := edf.ilocSlice 2 9 with hpdf
  have hpdfn : pdf.colNames = engineeredColNames ms := by
    rw [hpdf, colNames_ilocSlice, hen]
  have hpdfu : pdf.Uniform 7 := by
    have := uniform_ilocSlice edf 10 2 9 heu
    simpa using this
  have hpdfne : pdf ≠ [] := by
    intro h0
    have : "date" ∈ pdf.colNames := by
      rw [hpdfn]
      exact mem_lag_name_fold _ _ _ (by decide)
    rw [h0] at this
    cases this
  have hpn : pdf.nRows = 7 := nRows_eq pdf 7 hpdfu hpdfne
  have hmoonslice : pdf.getCol "moon_age" = some ((mc.drop 2).take 7) := by
    rw [hpdf, getCol_ilocSlice, hmoon]
    rfl
  have hsel : ∀ i : ℕ, selectRow pdf ms.features_list i
      = Except.ok (ms.features_list.map
          (fun nm => ((pdf.getCol nm).getD []).getD i none)) := by
    intro i
    unfold selectRow
    apply mapME_ok_of
    intro nm hnm
    have hmem : nm ∈ pdf.map Prod.fst := by
      rw [show pdf.map Prod.fst = engineeredColNames ms from hpdfn]
      exact hfeat nm hnm
    obtain ⟨cc, hcc⟩ := lookup_isSome_of_mem_keys nm pdf hmem
    rw [show pdf.getCol nm = some cc from hcc]
    rfl
  have hX : mapME (fun i => selectRow pdf ms.features_list i) (List.range pdf.nRows)
      = Except.ok ((List.range 7).map (fun i => ms.features_list.map
          (fun nm => ((pdf.getCol nm).getD []).getD i none))) := by
    rw [hpn]
    exact mapME_ok_of _ _ _ (fun i _ => hsel i)
  set y_pred := ((List.range 7).map (fun i => ms.features_list.map
      (fun nm => ((pdf.getCol nm).getD []).getD i none))).map
      (fun r => ms.scalerYInv (ms.predictOne (ms.scalerX r))) with hyp
  have hylen : y_pred.length = 7 := by simp [hyp]
  set gresp : ℕ × ℚ → PredictionResponse := fun p =>
    let dr := (List.find? (fun d => decide (d.time = today + (p.1 : ℤ))) w.daily).getD
      ⟨0, 0, 0, 0, 0, 0⟩
    ⟨today + (p.1 : ℤ), p.2, ((mc.drop 2).take 7).getD p.1 none, dr.weather_code,
      dr.temperature_2m_max, dr.temperature_2m_min, dr.precipitation_probability_max,
      dr.wind_direction_10m_dominant⟩ with hgresp
  have hloop : mapME (fun p : ℕ × ℚ =>
      let i := p.1
      let target := today + (i : ℤ)
      match w.daily.find? (fun d => decide (d.time = target)) with
      | none => Except.error "single positional indexer is out-of-bounds"
      | some daily_info =>
        match pdf.getCol "moon_age" with
        | none => Except.error "KeyError: moon_age"
        | some mcc =>
          Except.ok ⟨target, p.2, mcc.getD i none, daily_info.weather_code,
            daily_info.temperature_2m_max, daily_info.temperature_2m_min,
            daily_info.precipitation_probability_max,
            daily_info.wind_direction_10m_dominant⟩) y_pred.enum
      = Except.ok (y_pred.enum.map gresp) := by
    apply mapME_ok_of
    intro p hp
    have hlt : p.1 < 7 := by
      have := enum_fst_lt y_pred p hp
      rw [hylen] at this
      exact this
    obtain ⟨dr, hdr⟩ := Option.isSome_iff_exists.mp (hdaily p.1 hlt)
    rw [hgresp]
    simp only [hdr, hmoonslice, Option.getD_some]
  have hpw : predict_weekly ops cal ms today (some w) f
      = Except.ok (y_pred.enum.map gresp) := by
    unfold predict_weekly
    rw [bind_eq_ok]
    refine ⟨edf, hok, ?_⟩
    rw [bind_eq_ok]
    refine ⟨(List.range 7).map (fun i => ms.features_list.map
      (fun nm => ((pdf.getCol nm).getD []).getD i none)), hX, ?_⟩
    exact hloop
  refine ⟨edf, mc, y_pred.enum.map gresp, hok, hnrows, hmoon, hpw, ?_, ?_⟩
  · simp [hylen]
  · intro i h
    have hi7 : i < 7 := by
      have := h
      rw [List.length_map, List.enum_length, hylen] at this
      exact this
    have hget : (y_pred.enum.map gresp).get ⟨i, h⟩
        = gresp (y_pred.enum.get ⟨i, by
            rw [List.enum_length, hylen]; exact hi7⟩) := by
      rw [List.get_eq_getElem, List.get_eq_getElem, List.getElem_map]
    have henum : y_pred.enum.get ⟨i, by rw [List.enum_length, hylen]; exact hi7⟩
        = (i, y_pred.get ⟨i, by rw [hylen]; exact hi7⟩) := by
      rw [List.get_eq_getElem, List.getElem_enum]
      rw [List.get_eq_getElem]
    obtain ⟨dr, hdr⟩ := Option.isSome_iff_exists.mp (hdaily i hi7)
    rw [hget, henum, hgresp]
    refine ⟨rfl, ⟨dr, hdr, ?_, ?_, ?_, ?_, ?_⟩, ?_⟩
    · simp [hdr]
    · simp [hdr]
    · simp [hdr]
    · simp [hdr]
    · simp [hdr]
    · simp only []
      exact slice_getD mc i hi7

/-- C6: on success predict_weekly returns exactly 7 predictions in date
order, one for each date today..today+6; they are built from rows at
indices 2..8 of the 10-row engineered table; each record's weather_code,
temperature_max, temperature_min, precipitation_probability_max and
dominant_wind_direction equal the daily-summary fields of the first
fetched daily row of its calendar date, and its moon_age is the selected
row's (row i+2) lunar-age cell. -/
theorem C6_weekly_output (ops : FloatOps) (cal : Calendar) (ms : ModelStack)
    (today : ℤ) (w : WeatherData) (f : ℤ → Option ℚ)
    (hfeat : ∀ c ∈ ms.features_list, c ∈ engineeredColNames ms)
    (hdaily : ∀ i : ℕ, i < 7 →
      (List.find? (fun d => decide (d.time = today + (i : ℤ))) w.daily).isSome = true) :
    ∃ edf mc preds,
      engineeredTable ops cal ms today (w.hourly.map enrichHourly) f = Except.ok edf ∧
      edf.nRows = 10 ∧
      edf.getCol "moon_age" = some mc ∧
      predict_weekly ops cal ms today (some w) f = Except.ok preds ∧
      preds.length = 7 ∧
      (∀ i (h : i < preds.length),
        (preds.get ⟨i, h⟩).date = today + (i : ℤ) ∧
        (∃ dr, List.find? (fun d => decide (d.time = today + (i : ℤ))) w.daily = some dr ∧
          (preds.get ⟨i, h⟩).weather_code = dr.weather_code ∧
          (preds.get ⟨i, h⟩).temperature_max = dr.temperature_2m_max ∧
          (preds.get ⟨i, h⟩).temperature_min = dr.temperature_2m_min ∧
          (preds.get ⟨i, h⟩).precipitation_probability_max
            = dr.precipitation_probability_max ∧
          (preds.get ⟨i, h⟩).dominant_wind_direction = dr.wind_direction_10m_dominant) ∧
        (preds.get ⟨i, h⟩).moon_age = mc.getD (i + 2) none) :=
  predict_weekly_ok ops cal ms today w f hfeat hdaily

/-- Witness for C6: a concrete run with empty hourly data, seven daily
rows for dates 0..6, an empty feature list and all lunar-age fetches
failing. -/
theorem C6_weekly_output_witness :
    ∃ edf mc preds,
      engineeredTable zeroOps zeroCal ⟨[], id, [], fun _ => [], fun _ => 0, id⟩ 0
        (([] : List RawHourly).map enrichHourly) (fun _ => none) = Except.ok edf ∧
      edf.nRows = 10 ∧
      edf.getCol "moon_age" = some mc ∧
      predict_weekly zeroOps zeroCal ⟨[], id, [], fun _ => [], fun _ => 0, id⟩ 0
        (some ⟨[], ([⟨0, 0, 0, 0, 0, 0⟩, ⟨1, 0, 0, 0, 0, 0⟩, ⟨2, 0, 0, 0, 0, 0⟩,
          ⟨3, 0, 0, 0, 0, 0⟩, ⟨4, 0, 0, 0, 0, 0⟩, ⟨5, 0, 0, 0, 0, 0⟩,
          ⟨6, 0, 0, 0, 0, 0⟩] : List DailyRecord)⟩) (fun _ => none) = Except.ok preds ∧
      preds.length = 7 ∧
      (∀ i (h : i < preds.length),
        (preds.get ⟨i, h⟩).date = 0 + (i : ℤ) ∧
        (∃ dr, List.find? (fun d => decide (d.time = 0 + (i : ℤ)))
            ([⟨0, 0, 0, 0, 0, 0⟩, ⟨1, 0, 0, 0, 0, 0⟩, ⟨2, 0, 0, 0, 0, 0⟩,
             ⟨3, 0, 0, 0, 0, 0⟩, ⟨4, 0, 0, 0, 0, 0⟩, ⟨5, 0, 0, 0, 0, 0⟩,
             ⟨6, 0, 0, 0, 0, 0⟩] : List DailyRecord) = some dr ∧
          (preds.get ⟨i, h⟩).weather_code = dr.weather_code ∧
          (preds.get ⟨i, h⟩).temperature_max = dr.temperature_2m_max ∧
          (preds.get ⟨i, h⟩).temperature_min = dr.temperature_2m_min ∧
          (preds.get ⟨i, h⟩).precipitation_probability_max
            = dr.precipitation_probability_max ∧
          (preds.get ⟨i, h⟩).dominant_wind_direction = dr.wind_direction_10m_dominant) ∧
        (preds.get ⟨i, h⟩).moon_age = mc.getD (i + 2) none) :=
  C6_weekly_output zeroOps zeroCal ⟨[], id, [], fun _ => [], fun _ => 0, id⟩ 0
    ⟨[], [⟨0, 0, 0, 0, 0, 0⟩, ⟨1, 0, 0, 0, 0, 0⟩, ⟨2, 0, 0, 0, 0, 0⟩,
      ⟨3, 0, 0, 0, 0, 0⟩, ⟨4, 0, 0, 0, 0, 0⟩, ⟨5, 0, 0, 0, 0, 0⟩,
      ⟨6, 0, 0, 0, 0, 0⟩]⟩ (fun _ => none)
    (by simp) (by decide)

/-- C7: a failed weather fetch aborts predict_weekly with the error the
endpoint turns into a 500; a failed individual lunar-age fetch never
propagates — the run is identical to one where that fetch returned the
default 15.0 — and under the usual success conditions the call completes
for every lunar-age fetch behavior. -/
theorem C7_error_propagation :
    (∀ (ops : FloatOps) (cal : Calendar) (ms : ModelStack) (today : ℤ)
        (f : ℤ → Option ℚ),
      predict_weekly ops cal ms today none f
        = Except.error "気象データの取得に失敗しました。") ∧
    (∀ (ops : FloatOps) (cal : Calendar) (ms : ModelStack) (today : ℤ)
        (weather : Option WeatherData) (f : ℤ → Option ℚ),
      predict_weekly ops cal ms today weather f
        = predict_weekly ops cal ms today weather (fun d => some ((f d).getD 15))) ∧
    (∀ (ops : FloatOps) (cal : Calendar) (ms : ModelStack) (today : ℤ)
        (w : WeatherData) (f : ℤ → Option ℚ),
      (∀ c ∈ ms.features_list, c ∈ engineeredColNames ms) →
      (∀ i : ℕ, i < 7 →
        (List.find? (fun d => decide (d.time = today + (i : ℤ))) w.daily).isSome = true) →
      ∃ preds, predict_weekly ops cal ms today (some w) f = Except.ok preds) := by
  refine ⟨fun _ _ _ _ _ => rfl, ?_, ?_⟩
  · intro ops cal ms today weather f
    cases weather with
    | none => rfl
    | some w =>
      have hft2 : featureTable ops cal today (w.hourly.map enrichHourly) f
          = featureTable ops cal today (w.hourly.map enrichHourly)
            (fun d => some ((f d).getD 15)) := by
        unfold featureTable
        simp only [Option.getD_some]
      unfold predict_weekly engineeredTable
      simp only [hft2]
  · intro ops cal ms today w f hfeat hdaily
    obtain ⟨edf, mc, preds, _, _, _, hpw, _, _⟩ :=
      predict_weekly_ok ops cal ms today w f hfeat hdaily
    exact ⟨preds, hpw⟩

/-- Witness for C7: the completion conjunct applied at the same concrete
inputs with every lunar-age fetch failing. -/
theorem C7_error_propagation_witness :
    ∃ preds, predict_weekly zeroOps zeroCal ⟨[], id, [], fun _ => [], fun _ => 0, id⟩ 0
      (some ⟨[], ([⟨0, 0, 0, 0, 0, 0⟩, ⟨1, 0, 0, 0, 0, 0⟩, ⟨2, 0, 0, 0, 0, 0⟩,
        ⟨3, 0, 0, 0, 0, 0⟩, ⟨4, 0, 0, 0, 0, 0⟩, ⟨5, 0, 0, 0, 0, 0⟩,
        ⟨6, 0, 0, 0, 0, 0⟩] : List DailyRecord)⟩) (fun _ => none) = Except.ok preds :=
  C7_error_propagation.2.2 zeroOps zeroCal ⟨[], id, [], fun _ => [], fun _ => 0, id⟩ 0
    ⟨[], [⟨0, 0, 0, 0, 0, 0⟩, ⟨1, 0, 0, 0, 0, 0⟩, ⟨2, 0, 0, 0, 0, 0⟩,
      ⟨3, 0, 0, 0, 0, 0⟩, ⟨4, 0, 0, 0, 0, 0⟩, ⟨5, 0, 0, 0, 0, 0⟩,
      ⟨6, 0, 0, 0, 0, 0⟩]⟩ (fun _ => none) (by simp) (by decide)

end Hotaruika
